import Mathlib

/-!
# System tray lifecycle engine (`applets/systemtray/systemtray.cpp`)

A shallow embedding of the part of `SystemTray` that decides which applet
instances exist: `init`, `newTask`, `cleanupTask`, `restorePlasmoids`,
`setAllowedPlasmoids`, `serviceNameFetchFinished`, `serviceOwnerChanged`,
`serviceRegistered` and `serviceUnregistered`.

The class members keep their names.  What the class obtains from
`Plasma::Containment`, `Plasma::PluginLoader`, `KConfigGroup` and the event
loop is kept as explicit fields of the state (`applets`, `config`,
`installed`, `s_maxAppletId`, `appletDeletedRemoves`); calls, signals and
requests made by the code are appended to `log`.

What is taken for granted about the libraries:

* `loadApplet` and `createApplet` return null and add nothing when the plugin
  cannot be instantiated; otherwise the applet has valid metadata of the
  requested plugin, is not destroyed, and `loadApplet(task, id)` gives it the
  id `id`, `createApplet` the next unused id.
* `deleteLater()` takes effect when control returns to the event loop
  (`deferredDelete`); whether emitting `appletDeleted` takes the applet out of
  `applets()` at once is left open (`appletDeletedRemoves`), the theorems hold
  either way.
* `Applet::destroyed()` is set from outside only (`appletDestroy`).
* The configuration groups are read and deleted by the tray; what the runtime
  writes to them is not modelled, the theorems hold for every content.
* A failing `Q_ASSERT` is recorded in the log and execution goes on.
* The activation counts are C++ `int`; the model uses unbounded integers, so
  what it says about an increment holds for the code below `INT_MAX` only.
-/

/-! ## Qt containers -/

/-- A `QHash<QString, V>`: one value per key.  The iteration order of a `QHash`
is unspecified; the model iterates in list order and the theorems hold for
every order. -/
abbrev QHash (V : Type) := List (String × V)

/-- The method `QHash::contains(key)`. -/
def QHash.contains {V : Type} (h : QHash V) (key : String) : Bool :=
  (List.lookup key h).isSome

/-- The method `QHash::value(key)` with the default-constructed value `dflt`
for an absent key; `operator[]` reads the same value. -/
def QHash.value {V : Type} (h : QHash V) (key : String) (dflt : V) : V :=
  (List.lookup key h).getD dflt

/-- The assignment `hash[key] = v`: replaces the value of an existing key, else
adds the key. -/
def QHash.insert {V : Type} : QHash V → String → V → QHash V
  | [], key, v => [(key, v)]
  | (k, w) :: rest, key, v =>
    if k = key then (key, v) :: rest else (k, w) :: QHash.insert rest key v

/-- The `operator<` of `QString`: lexicographic comparison, character by
character (by code point here, by UTF-16 code unit in Qt). -/
def QString.lt (a b : String) : Bool :=
  decide (a.data < b.data)

/-- A `QMap<QString, V>` filled with `insertMulti`: entries in ascending key
order, several entries per key allowed. -/
abbrev QMap (V : Type) := List (String × V)

/-- The method `QMap::contains(key)`. -/
def QMap.contains {V : Type} (m : QMap V) (key : String) : Bool :=
  m.any (fun it => it.1 == key)

/-- The method `QMap::values(key)`: all values stored under `key`. -/
def QMap.values {V : Type} (m : QMap V) (key : String) : List V :=
  (m.filter (fun it => it.1 == key)).map (fun it => it.2)

/-- The method `QMap::insertMulti(key, v)`: the new entry goes before the first
entry whose key is not smaller, so among equal keys the latest insertion
comes first. -/
def QMap.insertMulti {V : Type} : QMap V → String → V → QMap V
  | [], key, v => [(key, v)]
  | (k, w) :: rest, key, v =>
    if QString.lt k key then (k, w) :: QMap.insertMulti rest key v
    else (key, v) :: (k, w) :: rest

/-- The method `QString::startsWith(QLatin1Char(c))`. -/
def QString.startsWith (s : String) (c : Char) : Bool :=
  s.data.head? == some c

/-! ## Activation patterns -/

/-- A compiled `QRegExp`, known through `exactMatch` only. -/
structure QRegExp where
  /-- The method `QRegExp::exactMatch(str)`. -/
  exactMatch : String → Bool

/-- Wildcard matching of a whole string: `?` matches one character, `*` any
run of characters, every other character itself.  (Bracket sets of
`QRegExp::Wildcard` are not interpreted.) -/
def wildcardMatch : List Char → List Char → Bool
  | [], str => str.isEmpty
  | p :: ps, str =>
    if p = '*' then str.tails.any (fun rest => wildcardMatch ps rest)
    else match str with
      | [] => false
      | c :: cs => (p = '?' || p = c) && wildcardMatch ps cs

/-- The pattern built by `QRegExp rx(pattern)` followed by
`rx.setPatternSyntax(QRegExp::Wildcard)`. -/
def QRegExp.wildcard (pattern : String) : QRegExp :=
  ⟨fun str => wildcardMatch pattern.data str.data⟩

/-! ## Plugins and applets -/

/-- The fields of a `KPluginMetaData` that the tray reads. -/
structure KPluginMetaData where
  /-- The value of `pluginId()`. -/
  pluginId : String
  /-- The value of `name()`, the display name. -/
  name : String
  /-- The value of `isValid()`. -/
  valid : Bool
  /-- The value of `value("X-Plasma-NotificationArea")`. -/
  notificationArea : String
  /-- The value of `isEnabledByDefault()`. -/
  enabledByDefault : Bool
  /-- The value of `value("X-Plasma-DBusActivationService")`, empty when absent. -/
  dbusActivationService : String
  deriving DecidableEq, Repr

/-- A `Plasma::Applet` living in the containment. -/
structure Applet where
  /-- The value of `Applet::id()`, the number of its configuration group. -/
  id : Nat
  /-- The value of `pluginMetaData().pluginId()`. -/
  pluginId : String
  /-- The value of `pluginMetaData().isValid()`. -/
  valid : Bool
  /-- The value of `Applet::destroyed()`. -/
  destroyed : Bool
  /-- A `deleteLater()` request is pending on the object. -/
  deleteLater : Bool
  deriving DecidableEq, Repr

/-- What the tray does to the outside: calls of its own entry points, requests
to the runtime and emitted signals, in the order they happen. -/
inductive Effect where
  | newTask (task : String)
  | cleanupTask (task : String)
  | unableToFindApplet (task : String)
  | addApplet (applet : Applet)
  | deleteGroup (applet : Applet)
  | deleteLater (applet : Applet)
  | appletDeleted (applet : Applet)
  | loadedAsApplet
  | restorePlasmoids
  | initDBusActivatables
  | allowedPlasmoidsChanged
  | assertFailed (plugin : String)
  | couldNotListServices
  | watchServiceOwnerChanged
  deriving DecidableEq, Repr

/-- The tray containment together with the runtime state it reads and writes. -/
structure SystemTray where
  /-- The value of `isContainment()`. -/
  isContainment : Bool
  /-- The list `Containment::applets()`. -/
  applets : List Applet
  /-- The groups of `config()`/"Applets": group number and its "plugin" entry. -/
  config : List (Nat × String)
  /-- Plugin ids that the plugin loader can instantiate. -/
  installed : List String
  /-- The largest applet id handed out so far. -/
  s_maxAppletId : Nat
  /-- Whether the runtime takes an applet out of `applets()` as soon as
  `appletDeleted` is emitted for it (otherwise when its deletion completes). -/
  appletDeletedRemoves : Bool
  m_defaultPlasmoids : List String
  m_systrayApplets : QHash KPluginMetaData
  m_dbusActivatableTasks : QHash QRegExp
  m_allowedPlasmoids : List String
  m_knownPlugins : QHash Nat
  /-- The counts are C++ `int`; the model uses unbounded integers. -/
  m_dbusServiceCounts : QHash Int
  /-- Everything done so far, oldest first. -/
  log : List Effect

namespace SystemTray

/-- The freshly constructed tray: nothing discovered, allowed, known or running. -/
def fresh (installed : List String) (config : List (Nat × String))
    (appletDeletedRemoves : Bool) : SystemTray :=
  { isContainment := true, applets := [], config := config, installed := installed,
    s_maxAppletId := 0, appletDeletedRemoves := appletDeletedRemoves,
    m_defaultPlasmoids := [], m_systrayApplets := [], m_dbusActivatableTasks := [],
    m_allowedPlasmoids := [], m_knownPlugins := [], m_dbusServiceCounts := [], log := [] }

/-- Appends one effect to the log. -/
def record (s : SystemTray) (e : Effect) : SystemTray :=
  { s with log := s.log ++ [e] }

/-- The effects that happened between the state `s` and the later state `t`. -/
def effectsSince (s t : SystemTray) : List Effect :=
  t.log.drop s.log.length

/-- The applets added to the containment between `s` and the later state `t`. -/
def createdSince (s t : SystemTray) : List Applet :=
  (effectsSince s t).filterMap (fun e => match e with
    | Effect.addApplet applet => some applet
    | _ => none)

/-- Body of the loop of `init()` for one discovered descriptor. -/
def initOne (s : SystemTray) (info : KPluginMetaData) : SystemTray :=
  if !info.valid || info.notificationArea != "true" then s
  else
    let s1 := { s with m_systrayApplets := QHash.insert s.m_systrayApplets info.pluginId info }
    let s2 := if info.enabledByDefault then
        { s1 with m_defaultPlasmoids := s1.m_defaultPlasmoids ++ [info.pluginId] }
      else s1
    let dbusactivation := info.dbusActivationService
    if dbusactivation != "" then
      { s2 with m_dbusActivatableTasks :=
          QHash.insert s2.m_dbusActivatableTasks info.pluginId (QRegExp.wildcard dbusactivation) }
    else s2

/-- The method `SystemTray::init()` over the descriptors returned by
`listAppletMetaData`. -/
def init (s : SystemTray) (listAppletMetaData : List KPluginMetaData) : SystemTray :=
  listAppletMetaData.foldl initOne s

/-- The applet instantiated for plugin `task` with id `id`: valid metadata, not
destroyed, no deletion pending. -/
def loaded (task : String) (id : Nat) : Applet :=
  { id := id, pluginId := task, valid := true, destroyed := false, deleteLater := false }

/-- The call `PluginLoader::loadApplet(task, id)`: null when the plugin cannot
be found, else an applet of that plugin carrying the requested id. -/
def loadApplet (s : SystemTray) (task : String) (id : Nat) : Option Applet :=
  if s.installed.contains task then some (loaded task id) else none

/-- The call `Containment::addApplet(applet)`. -/
def addApplet (s : SystemTray) (applet : Applet) : SystemTray :=
  { s with applets := s.applets ++ [applet],
           s_maxAppletId := max s.s_maxAppletId applet.id,
           log := s.log ++ [Effect.addApplet applet] }

/-- The call `Containment::createApplet(task, args)`: null when the plugin
cannot be loaded, else a new applet with the next unused id, already added. -/
def createApplet (s : SystemTray) (task : String) : SystemTray × Option Applet :=
  match s.loadApplet task (s.s_maxAppletId + 1) with
  | none => (s, none)
  | some applet => (s.addApplet applet, some applet)

/-- The method `SystemTray::newTask(task)`. -/
def newTask (s0 : SystemTray) (task : String) : SystemTray :=
  let s := s0.record (Effect.newTask task)
  if s.applets.any (fun applet =>
      applet.valid && (task == applet.pluginId) && !applet.destroyed) then s
  else if QHash.contains s.m_knownPlugins task then
    match s.loadApplet task (QHash.value s.m_knownPlugins task 0) with
    | none => s.record (Effect.unableToFindApplet task)
    | some applet => s.addApplet applet
  else
    match s.createApplet task with
    | (s1, none) => s1
    | (s1, some applet) =>
      { s1 with m_knownPlugins := QHash.insert s1.m_knownPlugins task applet.id }

/-- The condition of the loop of `cleanupTask` for one applet. -/
def isTask (task : String) (applet : Applet) : Bool :=
  applet.valid && (task == applet.pluginId)

/-- The method `SystemTray::cleanupTask(task)`: every applet of the plugin gets
`deleteLater()` and an `appletDeleted` emission.  The loop runs over a copy
of `applets()`, so each applet is handled once. -/
def cleanupTask (s0 : SystemTray) (task : String) : SystemTray :=
  let s := s0.record (Effect.cleanupTask task)
  { s with
    applets :=
      if s.appletDeletedRemoves then s.applets.filter (fun applet => !isTask task applet)
      else s.applets.map (fun applet =>
        if isTask task applet then { applet with deleteLater := true } else applet),
    log := s.log ++ (s.applets.filter (isTask task)).flatMap (fun applet =>
      [Effect.deleteLater applet, Effect.appletDeleted applet]) }

/-- The first loop of `restorePlasmoids`: is this applet not allowed anymore? -/
def notAllowedAnymore (allowed : List String) (applet : Applet) : Bool :=
  if !applet.valid then true
  else
    let task := applet.pluginId
    if !allowed.contains task then true else false

/-- The second loop of `restorePlasmoids`: the "plugin" entry of every
configuration group is stored in the table of known plugins. -/
def readKnownPlugins (known : QHash Nat) (groups : List (Nat × String)) : QHash Nat :=
  groups.foldl (fun m group =>
    let plugin := group.2
    if plugin != "" then QHash.insert m plugin group.1 else m) known

/-- Body of the third loop of `restorePlasmoids`. -/
def sortedAppletsStep (s : SystemTray) (sortedApplets : QMap KPluginMetaData)
    (it : String × KPluginMetaData) : QMap KPluginMetaData :=
  let info := it.2
  if s.m_allowedPlasmoids.contains info.pluginId &&
      !QHash.contains s.m_dbusActivatableTasks info.pluginId then
    if QMap.contains sortedApplets info.name &&
        (QMap.values sortedApplets info.name).any (fun existingInfo =>
          existingInfo.pluginId == info.pluginId) then
      sortedApplets
    else QMap.insertMulti sortedApplets info.name info
  else sortedApplets

/-- The map `sortedApplets` built by `restorePlasmoids`. -/
def sortedApplets (s : SystemTray) : QMap KPluginMetaData :=
  s.m_systrayApplets.foldl (sortedAppletsStep s) []

/-- Body of the last loop of `restorePlasmoids`. -/
def addSorted (s : SystemTray) (it : String × KPluginMetaData) : SystemTray :=
  if s.m_allowedPlasmoids.contains it.2.pluginId then s.newTask it.2.pluginId else s

/-- The first loop of `restorePlasmoids`: every applet that is not allowed
anymore has its configuration group deleted and gets `deleteLater()`. -/
def removeNotAllowed (s : SystemTray) : SystemTray :=
  let gone := s.applets.filter (notAllowedAnymore s.m_allowedPlasmoids)
  { s with
    applets := s.applets.map (fun applet =>
      if notAllowedAnymore s.m_allowedPlasmoids applet then
        { applet with deleteLater := true } else applet),
    config := s.config.filter (fun group => !gone.any (fun applet => applet.id == group.1)),
    log := s.log ++ gone.flatMap (fun applet =>
      [Effect.deleteGroup applet, Effect.deleteLater applet]) }

/-- The second loop of `restorePlasmoids` on the state. -/
def loadKnownPlugins (s : SystemTray) : SystemTray :=
  { s with m_knownPlugins := readKnownPlugins s.m_knownPlugins s.config }

/-- The method `SystemTray::restorePlasmoids()`.  `initDBusActivatables()` only
issues the asynchronous `ListNames` calls; their answers arrive later through
`serviceNameFetchFinished`. -/
def restorePlasmoids (s0 : SystemTray) : SystemTray :=
  if !s0.isContainment then s0.record Effect.loadedAsApplet
  else
    let s1 := (s0.record Effect.restorePlasmoids).removeNotAllowed
    let s2 := s1.loadKnownPlugins
    let s3 := (sortedApplets s2).foldl addSorted s2
    s3.record Effect.initDBusActivatables

/-- The method `SystemTray::setAllowedPlasmoids(allowed)`. -/
def setAllowedPlasmoids (s : SystemTray) (allowed : List String) : SystemTray :=
  if allowed = s.m_allowedPlasmoids then s
  else
    (restorePlasmoids { s with m_allowedPlasmoids := allowed }).record
      Effect.allowedPlasmoidsChanged

/-- The largest value of a C++ `int`.  The counts of `m_dbusServiceCounts` are
`int`; the model computes with unbounded integers, which agrees with the code
as long as no `++` is applied to a count of `INT_MAX`. -/
def INT_MAX : Int := 2147483647

/-- Reading `m_dbusServiceCounts[plugin]`: the activation count of `plugin`,
0 when it has none yet. -/
def count (s : SystemTray) (plugin : String) : Int :=
  QHash.value s.m_dbusServiceCounts plugin 0

/-- Writing `m_dbusServiceCounts[plugin] = n`.  The value is kept as an
unbounded integer; the `int` of the code holds the same value while `n` stays
within the range of `int`. -/
def setCount (s : SystemTray) (plugin : String) (n : Int) : SystemTray :=
  { s with m_dbusServiceCounts := QHash.insert s.m_dbusServiceCounts plugin n }

/-- Body of the loop of `serviceRegistered` for one activatable plugin. -/
def registeredStep (service : String) (s : SystemTray) (it : String × QRegExp) : SystemTray :=
  let plugin := it.1
  if !s.m_allowedPlasmoids.contains plugin then s
  else
    let rx := it.2
    if rx.exactMatch service then
      let s1 := s.newTask plugin
      s1.setCount plugin (s1.count plugin + 1)
    else s

/-- The method `SystemTray::serviceRegistered(service)`. -/
def serviceRegistered (s : SystemTray) (service : String) : SystemTray :=
  if QString.startsWith service ':' then s
  else s.m_dbusActivatableTasks.foldl (registeredStep service) s

/-- Body of the loop of `serviceUnregistered` for one activatable plugin.  A
failing `Q_ASSERT` is recorded and execution goes on, as in a build without
assertions. -/
def unregisteredStep (service : String) (s : SystemTray) (it : String × QRegExp) : SystemTray :=
  let plugin := it.1
  if !s.m_allowedPlasmoids.contains plugin then s
  else
    let rx := it.2
    if rx.exactMatch service then
      let s1 := s.setCount plugin (s.count plugin - 1)
      let s2 := if s1.count plugin ≥ 0 then s1 else s1.record (Effect.assertFailed plugin)
      if s2.count plugin = 0 then s2.cleanupTask plugin else s2
    else s

/-- The method `SystemTray::serviceUnregistered(service)`. -/
def serviceUnregistered (s : SystemTray) (service : String) : SystemTray :=
  s.m_dbusActivatableTasks.foldl (unregisteredStep service) s

/-- The method `SystemTray::serviceNameFetchFinished`: `reply` is `none` for an
error reply, else the list of names. -/
def serviceNameFetchFinished (s : SystemTray) (reply : Option (List String)) : SystemTray :=
  let s1 := match reply with
    | none => s.record Effect.couldNotListServices
    | some names => names.foldl serviceRegistered s
  s1.record Effect.watchServiceOwnerChanged

/-- The method `SystemTray::serviceOwnerChanged(serviceName, oldOwner, newOwner)`. -/
def serviceOwnerChanged (s : SystemTray) (serviceName oldOwner newOwner : String) : SystemTray :=
  if oldOwner = "" then s.serviceRegistered serviceName
  else if newOwner = "" then s.serviceUnregistered serviceName
  else s

/-- The event loop carries out the pending `deleteLater()` requests: the
deleted applets leave `applets()`. -/
def deferredDelete (s : SystemTray) : SystemTray :=
  { s with applets := s.applets.filter (fun applet => !applet.deleteLater) }

/-- The call `Applet::destroy()` made from outside on the applets with this id:
they are marked destroyed and stay in `applets()` for the time being. -/
def appletDestroy (s : SystemTray) (id : Nat) : SystemTray :=
  { s with applets := s.applets.map (fun applet =>
      if applet.id = id then { applet with destroyed := true } else applet) }

/-- One call into the tray, or one step of its runtime. -/
inductive Call where
  | newTask (task : String)
  | cleanupTask (task : String)
  | setAllowedPlasmoids (allowed : List String)
  | serviceRegistered (service : String)
  | serviceUnregistered (service : String)
  | deferredDelete
  | appletDestroy (id : Nat)

/-- Carries out one call. -/
def step (s : SystemTray) : Call → SystemTray
  | Call.newTask task => s.newTask task
  | Call.cleanupTask task => s.cleanupTask task
  | Call.setAllowedPlasmoids allowed => s.setAllowedPlasmoids allowed
  | Call.serviceRegistered service => s.serviceRegistered service
  | Call.serviceUnregistered service => s.serviceUnregistered service
  | Call.deferredDelete => s.deferredDelete
  | Call.appletDestroy id => s.appletDestroy id

/-- Carries out a sequence of calls, first to last. -/
def run (s : SystemTray) (calls : List Call) : SystemTray :=
  calls.foldl step s

/-- The applets of plugin `plugin` in the containment. -/
def appletsOf (s : SystemTray) (plugin : String) : List Applet :=
  s.applets.filter (fun applet => applet.pluginId == plugin)

/-- Whether an effect is about plugin `plugin`: a call naming it, or a request
or signal for one of its applets. -/
def concerns (plugin : String) : Effect → Bool
  | Effect.newTask task => task == plugin
  | Effect.cleanupTask task => task == plugin
  | Effect.unableToFindApplet task => task == plugin
  | Effect.addApplet applet => applet.pluginId == plugin
  | Effect.deleteGroup applet => applet.pluginId == plugin
  | Effect.deleteLater applet => applet.pluginId == plugin
  | Effect.appletDeleted applet => applet.pluginId == plugin
  | Effect.assertFailed p => p == plugin
  | _ => false

/-- The effects about `plugin` that happened between `s` and the later state `t`. -/
def effectsFor (plugin : String) (s t : SystemTray) : List Effect :=
  (effectsSince s t).filter (concerns plugin)

/-- The part of the state that `newTask`, `cleanupTask`, `restorePlasmoids` and
the service events leave alone. -/
structure Static (s t : SystemTray) : Prop where
  m_allowedPlasmoids : t.m_allowedPlasmoids = s.m_allowedPlasmoids
  isContainment : t.isContainment = s.isContainment
  installed : t.installed = s.installed
  appletDeletedRemoves : t.appletDeletedRemoves = s.appletDeletedRemoves
  m_systrayApplets : t.m_systrayApplets = s.m_systrayApplets
  m_dbusActivatableTasks : t.m_dbusActivatableTasks = s.m_dbusActivatableTasks
  m_defaultPlasmoids : t.m_defaultPlasmoids = s.m_defaultPlasmoids

/-- The state `t` agrees with `s` on everything that belongs to `plugin`: its
applets, its count, its known id and the effects about it. -/
structure Frame (plugin : String) (s t : SystemTray) : Prop where
  applets : t.appletsOf plugin = s.appletsOf plugin
  count : t.count plugin = s.count plugin
  known : List.lookup plugin t.m_knownPlugins = List.lookup plugin s.m_knownPlugins
  log : t.log.filter (concerns plugin) = s.log.filter (concerns plugin)

/-- The log of `t` continues the log of `s`. -/
def LogExt (s t : SystemTray) : Prop :=
  ∃ fx, t.log = s.log ++ fx

/-- Every applet has valid metadata, and no plugin has two applets that are
not marked destroyed. -/
def AtMostOne (applets : List Applet) : Prop :=
  (∀ applet ∈ applets, applet.valid = true) ∧
  ∀ plugin : String,
    applets.countP (fun applet => applet.pluginId == plugin && !applet.destroyed) ≤ 1

/-- While `plugin` is waiting to come back: its id is known, it can be
instantiated, and it has no applet or the one applet with the known id. -/
def KeepsId (plugin : String) (id : Nat) (t : SystemTray) : Prop :=
  List.lookup plugin t.m_knownPlugins = some id ∧ plugin ∈ t.installed ∧
    (t.appletsOf plugin = [] ∨ t.appletsOf plugin = [loaded plugin id])

/-- While `plugin` is not allowed: its id stays known and all its applets
have a deletion pending. -/
def Leaving (plugin : String) (id : Nat) (t : SystemTray) : Prop :=
  List.lookup plugin t.m_knownPlugins = some id ∧
    (∀ a ∈ t.appletsOf plugin, a.deleteLater = true) ∧ plugin ∉ t.m_allowedPlasmoids

/-- The effects that a call `newTask(task)` can have: the call itself, the
warning that the applet cannot be found, or one applet of the plugin added. -/
def fromNewTask (task : String) (e : Effect) : Prop :=
  e = Effect.newTask task ∨ e = Effect.unableToFindApplet task ∨
    ∃ id, e = Effect.addApplet (loaded task id)

/-- Whether every `serviceUnregistered(name)` in the sequence comes after a
`serviceRegistered(name)` of the same name that has not been unregistered yet;
`present` holds the names registered so far. -/
def wellPaired (present : List String) : List Call → Bool
  | [] => true
  | Call.serviceRegistered name :: rest => wellPaired (name :: present) rest
  | Call.serviceUnregistered name :: rest =>
    present.contains name && wellPaired (present.erase name) rest
  | _ :: rest => wellPaired present rest

/-- An example catalogue: a player applet activated by the bus names
`org.example.*`, and a clock applet without activation pattern. -/
def exampleCatalog : List KPluginMetaData :=
  [⟨"player", "Player", true, "true", false, "org.example.*"⟩,
   ⟨"clock", "Clock", true, "true", true, ""⟩]

/-- The tray after `init()` on the example catalogue: nothing allowed yet, no
applets, all counts 0. -/
def exampleTray (appletDeletedRemoves : Bool) : SystemTray :=
  (fresh ["player", "clock"] [] appletDeletedRemoves).init exampleCatalog

/-- A tray whose one applet `any` is activated by every bus name (pattern `*`),
after `init()` and with `any` allowed. -/
def wildTray : SystemTray :=
  ((fresh ["any"] [] false).init [⟨"any", "Any", true, "true", false, "*"⟩]).setAllowedPlasmoids
    ["any"]

/-- A tray with two clock applets of different plugin ids and the same display
name, after `init()`: nothing allowed yet. -/
def twinTray : SystemTray :=
  (fresh ["a.clock", "b.clock"] [] false).init
    [⟨"a.clock", "Clock", true, "true", true, ""⟩,
     ⟨"b.clock", "Clock", true, "true", true, ""⟩]

/-- A tray whose configuration already holds group 5 for the clock applet, after
`init()`: nothing allowed yet. -/
def configuredTray : SystemTray :=
  (fresh ["clock"] [(5, "clock")] false).init [⟨"clock", "Clock", true, "true", true, ""⟩]

/-- The example tray with both applets allowed and `org.example.a` registered:
the clock runs as applet 1, the player as applet 2 with count 1. -/
def runningTray : SystemTray :=
  ((exampleTray false).setAllowedPlasmoids ["clock", "player"]).serviceRegistered "org.example.a"

/-- The running tray with an applet of invalid metadata added and with one
configuration group per applet, just before a reconciliation pass for the allow
list that holds the clock only. -/
def narrowedTray : SystemTray :=
  { runningTray with
    m_allowedPlasmoids := ["clock"],
    config := [(1, "clock"), (2, "player"), (7, "")],
    applets := runningTray.applets ++
      [{ id := 7, pluginId := "", valid := false, destroyed := false, deleteLater := false }] }

/-- A tray whose configuration holds group 1 for the clock applet and whose
catalogue has a second applet `foo` that sorts before the clock, after `init()`:
nothing allowed yet, no applet, no id handed out. -/
def sharedIdTray : SystemTray :=
  (fresh ["clock", "foo"] [(1, "clock")] false).init
    [⟨"clock", "Clock", true, "true", true, ""⟩, ⟨"foo", "Alarm", true, "true", true, ""⟩]

/-- The example catalogue on a system where no plugin can be instantiated, with
the player allowed and `org.example.a` registered: the player has count 1 and
no applet. -/
def failedTray : SystemTray :=
  (((fresh [] [] false).init exampleCatalog).setAllowedPlasmoids ["player"]).serviceRegistered
    "org.example.a"

end SystemTray

open SystemTray

/-! ## Lemmas on the containers -/

theorem QHash.lookup_insert_self {V : Type} (h : QHash V) (key : String) (v : V) :
    List.lookup key (QHash.insert h key v) = some v := by
  induction h with
  | nil => simp [QHash.insert, List.lookup]
  | cons hd tl ih =>
    obtain ⟨k, w⟩ := hd
    by_cases hk : k = key
    · simp [QHash.insert, hk, List.lookup]
    · have hk2 : (key == k) = false := by simpa using fun h => hk h.symm
      simp [QHash.insert, hk, List.lookup, hk2, ih]

theorem QHash.lookup_insert_other {V : Type} (h : QHash V) (key k : String) (v : V)
    (hne : k ≠ key) : List.lookup k (QHash.insert h key v) = List.lookup k h := by
  induction h with
  | nil =>
    have : (k == key) = false := by simpa using hne
    simp [QHash.insert, List.lookup, this]
  | cons hd tl ih =>
    obtain ⟨k2, w⟩ := hd
    by_cases hk : k2 = key
    · subst hk
      have : (k == k2) = false := by simpa using hne
      simp [QHash.insert, List.lookup, this]
    · simp only [QHash.insert, hk, if_false, List.lookup]
      cases hkk : (k == k2) <;> simp [ih]

theorem QHash.value_insert_self {V : Type} (h : QHash V) (key : String) (v d : V) :
    QHash.value (QHash.insert h key v) key d = v := by
  simp [QHash.value, QHash.lookup_insert_self]

theorem QHash.value_insert_other {V : Type} (h : QHash V) (key k : String) (v d : V)
    (hne : k ≠ key) : QHash.value (QHash.insert h key v) k d = QHash.value h k d := by
  simp [QHash.value, QHash.lookup_insert_other h key k v hne]

theorem QHash.contains_insert_self {V : Type} (h : QHash V) (key : String) (v : V) :
    QHash.contains (QHash.insert h key v) key = true := by
  simp [QHash.contains, QHash.lookup_insert_self]

theorem QHash.contains_insert_other {V : Type} (h : QHash V) (key k : String) (v : V)
    (hne : k ≠ key) : QHash.contains (QHash.insert h key v) k = QHash.contains h k := by
  simp [QHash.contains, QHash.lookup_insert_other h key k v hne]

theorem QHash.keys_insert {V : Type} (h : QHash V) (key : String) (v : V) :
    (QHash.insert h key v).map Prod.fst =
      if key ∈ h.map Prod.fst then h.map Prod.fst else h.map Prod.fst ++ [key] := by
  induction h with
  | nil => simp [QHash.insert]
  | cons hd tl ih =>
    obtain ⟨k, w⟩ := hd
    by_cases hk : k = key
    · subst hk; simp [QHash.insert]
    · have hk2 : ¬ key = k := fun h => hk h.symm
      simp only [QHash.insert, hk, if_false, List.map_cons, ih, List.mem_cons, hk2, false_or]
      split_ifs <;> simp

theorem QHash.keys_nodup_insert {V : Type} (h : QHash V) (key : String) (v : V)
    (hn : (h.map Prod.fst).Nodup) : ((QHash.insert h key v).map Prod.fst).Nodup := by
  rw [QHash.keys_insert]
  split_ifs with hm
  · exact hn
  · exact List.Nodup.append hn (List.nodup_singleton _) (by simpa using hm)

theorem QHash.mem_insert {V : Type} (h : QHash V) (key : String) (v : V) (it : String × V)
    (hit : it ∈ QHash.insert h key v) : it = (key, v) ∨ it ∈ h := by
  induction h with
  | nil => simpa [QHash.insert] using hit
  | cons hd tl ih =>
    obtain ⟨k, w⟩ := hd
    by_cases hk : k = key
    · simp only [QHash.insert, hk, if_true, List.mem_cons] at hit
      rcases hit with h1 | h1
      · exact Or.inl h1
      · exact Or.inr (List.mem_cons_of_mem _ h1)
    · simp only [QHash.insert, hk, if_false, List.mem_cons] at hit
      rcases hit with h1 | h1
      · exact Or.inr (by simp [h1])
      · rcases ih h1 with h2 | h2
        · exact Or.inl h2
        · exact Or.inr (List.mem_cons_of_mem _ h2)

/-- An invariant of the loop body is an invariant of the loop. -/
theorem foldl_invariant {α β : Type} (I : β → Prop) (f : β → α → β) (l : List α)
    (hstep : ∀ b a, a ∈ l → I b → I (f b a)) (b : β) (hb : I b) : I (l.foldl f b) := by
  induction l generalizing b with
  | nil => exact hb
  | cons a tl ih =>
    simp only [List.foldl_cons]
    exact ih (fun b x hx => hstep b x (List.mem_cons_of_mem _ hx)) _
      (hstep b a (List.mem_cons_self _ _) hb)

/-! ## `newTask` and `cleanupTask` -/

/-- Whether `task` has an applet that stops `newTask` from creating another. -/
theorem newTask_running (s : SystemTray) (task : String)
    (h : s.applets.any (fun applet =>
      applet.valid && (task == applet.pluginId) && !applet.destroyed) = true) :
    s.newTask task = s.record (Effect.newTask task) := by
  simp only [newTask, record]
  rw [if_pos h]

theorem newTask_known (s : SystemTray) (task : String)
    (h : s.applets.any (fun applet =>
      applet.valid && (task == applet.pluginId) && !applet.destroyed) = false)
    (hk : QHash.contains s.m_knownPlugins task = true) (hi : task ∈ s.installed) :
    s.newTask task = (s.record (Effect.newTask task)).addApplet
      (loaded task (QHash.value s.m_knownPlugins task 0)) := by
  simp only [newTask, record, loadApplet]
  rw [if_neg (by simp [h]), if_pos hk]
  simp [hi]

theorem newTask_known_fail (s : SystemTray) (task : String)
    (h : s.applets.any (fun applet =>
      applet.valid && (task == applet.pluginId) && !applet.destroyed) = false)
    (hk : QHash.contains s.m_knownPlugins task = true) (hi : task ∉ s.installed) :
    s.newTask task =
      (s.record (Effect.newTask task)).record (Effect.unableToFindApplet task) := by
  simp only [newTask, record, loadApplet]
  rw [if_neg (by simp [h]), if_pos hk]
  simp [hi]

theorem newTask_unknown (s : SystemTray) (task : String)
    (h : s.applets.any (fun applet =>
      applet.valid && (task == applet.pluginId) && !applet.destroyed) = false)
    (hk : QHash.contains s.m_knownPlugins task = false) (hi : task ∈ s.installed) :
    s.newTask task =
      { (s.record (Effect.newTask task)).addApplet (loaded task (s.s_maxAppletId + 1)) with
        m_knownPlugins := QHash.insert s.m_knownPlugins task (s.s_maxAppletId + 1) } := by
  simp only [newTask, record, loadApplet, createApplet]
  rw [if_neg (by simp [h]), if_neg (by simp [hk])]
  simp [hi, addApplet, loaded]

theorem newTask_unknown_fail (s : SystemTray) (task : String)
    (h : s.applets.any (fun applet =>
      applet.valid && (task == applet.pluginId) && !applet.destroyed) = false)
    (hk : QHash.contains s.m_knownPlugins task = false) (hi : task ∉ s.installed) :
    s.newTask task = s.record (Effect.newTask task) := by
  simp only [newTask, record, loadApplet, createApplet]
  rw [if_neg (by simp [h]), if_neg (by simp [hk])]
  simp [hi]

/-- What `newTask` can do, in one statement: it logs the call and then either
changes nothing more, or logs a warning, or adds one new applet of the plugin
(with the known id, or with the next unused id which it then records). -/
theorem newTask_shape (s : SystemTray) (task : String) :
    ∃ (fx : List Effect) (added : List Applet) (known : QHash Nat) (m : Nat),
      s.newTask task = { s with log := s.log ++ Effect.newTask task :: fx,
                                applets := s.applets ++ added,
                                m_knownPlugins := known, s_maxAppletId := m } ∧
      ((added = [] ∧ known = s.m_knownPlugins ∧
          (fx = [] ∨ fx = [Effect.unableToFindApplet task])) ∨
       (∃ id, added = [loaded task id] ∧ fx = [Effect.addApplet (loaded task id)] ∧
          s.applets.any (fun applet =>
            applet.valid && (task == applet.pluginId) && !applet.destroyed) = false ∧
          task ∈ s.installed ∧
          ((QHash.contains s.m_knownPlugins task = true ∧
              id = QHash.value s.m_knownPlugins task 0 ∧ known = s.m_knownPlugins) ∨
           (QHash.contains s.m_knownPlugins task = false ∧ id = s.s_maxAppletId + 1 ∧
              known = QHash.insert s.m_knownPlugins task id)))) := by
  cases h : s.applets.any (fun applet =>
      applet.valid && (task == applet.pluginId) && !applet.destroyed)
  · cases hk : QHash.contains s.m_knownPlugins task
    · by_cases hi : task ∈ s.installed
      · refine ⟨[Effect.addApplet (loaded task (s.s_maxAppletId + 1))],
          [loaded task (s.s_maxAppletId + 1)],
          QHash.insert s.m_knownPlugins task (s.s_maxAppletId + 1),
          max s.s_maxAppletId (s.s_maxAppletId + 1), ?_, Or.inr ⟨_, rfl, rfl, rfl, hi,
            Or.inr ⟨rfl, rfl, rfl⟩⟩⟩
        rw [newTask_unknown s task h hk hi]
        simp [record, addApplet, loaded]
      · refine ⟨[], [], s.m_knownPlugins, s.s_maxAppletId, ?_, Or.inl ⟨rfl, rfl, Or.inl rfl⟩⟩
        rw [newTask_unknown_fail s task h hk hi]
        simp [record]
    · by_cases hi : task ∈ s.installed
      · refine ⟨[Effect.addApplet (loaded task (QHash.value s.m_knownPlugins task 0))],
          [loaded task (QHash.value s.m_knownPlugins task 0)], s.m_knownPlugins,
          max s.s_maxAppletId (QHash.value s.m_knownPlugins task 0), ?_,
          Or.inr ⟨_, rfl, rfl, rfl, hi, Or.inl ⟨rfl, rfl, rfl⟩⟩⟩
        rw [newTask_known s task h hk hi]
        simp [record, addApplet, loaded]
      · refine ⟨[Effect.unableToFindApplet task], [], s.m_knownPlugins, s.s_maxAppletId, ?_,
          Or.inl ⟨rfl, rfl, Or.inr rfl⟩⟩
        rw [newTask_known_fail s task h hk hi]
        simp [record]
  · refine ⟨[], [], s.m_knownPlugins, s.s_maxAppletId, ?_, Or.inl ⟨rfl, rfl, Or.inl rfl⟩⟩
    rw [newTask_running s task h]
    simp [record]

theorem filter_map_fixed {α : Type} (p : α → Bool) (f : α → α) (l : List α)
    (h1 : ∀ a, p (f a) = p a) (h2 : ∀ a, p a = true → f a = a) :
    (l.map f).filter p = l.filter p := by
  induction l with
  | nil => rfl
  | cons a tl ih =>
    simp only [List.map_cons, List.filter_cons, h1, ih]
    split_ifs with hp
    · rw [h2 a hp]
    · rfl

theorem filter_filter_of_imp {α : Type} (p q : α → Bool) (l : List α)
    (h : ∀ a, p a = true → q a = true) : (l.filter q).filter p = l.filter p := by
  rw [List.filter_filter]
  apply List.filter_congr
  intro a _
  cases hp : p a
  · simp
  · simp [h a hp]

theorem filter_flatMap_nil {α β : Type} (p : β → Bool) (g : α → List β) (l : List α)
    (h : ∀ a ∈ l, ∀ e ∈ g a, p e = false) : (l.flatMap g).filter p = [] := by
  rw [List.filter_eq_nil_iff]
  intro e he
  obtain ⟨a, ha, hea⟩ := List.mem_flatMap.mp he
  simp [h a ha e hea]

namespace SystemTray

theorem Static.srefl (s : SystemTray) : Static s s :=
  ⟨rfl, rfl, rfl, rfl, rfl, rfl, rfl⟩

theorem Static.strans {s t u : SystemTray} (h1 : Static s t) (h2 : Static t u) : Static s u :=
  ⟨h2.1.trans h1.1, h2.2.trans h1.2, h2.3.trans h1.3, h2.4.trans h1.4, h2.5.trans h1.5,
    h2.6.trans h1.6, h2.7.trans h1.7⟩

theorem LogExt.lrefl (s : SystemTray) : LogExt s s := ⟨[], by simp⟩

theorem LogExt.ltrans {s t u : SystemTray} (h1 : LogExt s t) (h2 : LogExt t u) : LogExt s u := by
  obtain ⟨f1, h1⟩ := h1
  obtain ⟨f2, h2⟩ := h2
  exact ⟨f1 ++ f2, by rw [h2, h1, List.append_assoc]⟩

theorem Frame.frefl (plugin : String) (s : SystemTray) : Frame plugin s s :=
  ⟨rfl, rfl, rfl, rfl⟩

theorem Frame.ftrans {plugin : String} {s t u : SystemTray} (h1 : Frame plugin s t)
    (h2 : Frame plugin t u) : Frame plugin s u :=
  ⟨h2.1.trans h1.1, h2.2.trans h1.2, h2.3.trans h1.3, h2.4.trans h1.4⟩

theorem effectsSince_of_log {s t : SystemTray} {fx : List Effect} (h : t.log = s.log ++ fx) :
    effectsSince s t = fx := by
  simp [effectsSince, h]

theorem effectsFor_of_log {s t : SystemTray} {fx : List Effect} (plugin : String)
    (h : t.log = s.log ++ fx) : effectsFor plugin s t = fx.filter (concerns plugin) := by
  simp [effectsFor, effectsSince_of_log h]

/-- The effects about a plugin between two states, read off the filtered logs. -/
theorem effectsFor_of_filter {s t : SystemTray} {fx : List Effect} (plugin : String)
    (hext : LogExt s t)
    (h : t.log.filter (concerns plugin) = s.log.filter (concerns plugin) ++ fx) :
    effectsFor plugin s t = fx := by
  obtain ⟨gx, hg⟩ := hext
  rw [effectsFor_of_log plugin hg]
  rw [hg, List.filter_append] at h
  exact List.append_cancel_left h

theorem record_static (s : SystemTray) (e : Effect) : Static s (s.record e) :=
  ⟨rfl, rfl, rfl, rfl, rfl, rfl, rfl⟩

theorem record_logExt (s : SystemTray) (e : Effect) : LogExt s (s.record e) := ⟨[e], rfl⟩

theorem newTask_static (s : SystemTray) (task : String) : Static s (s.newTask task) := by
  obtain ⟨fx, added, known, m, heq, -⟩ := newTask_shape s task
  rw [heq]
  exact ⟨rfl, rfl, rfl, rfl, rfl, rfl, rfl⟩

theorem newTask_logExt (s : SystemTray) (task : String) : LogExt s (s.newTask task) := by
  obtain ⟨fx, added, known, m, heq, -⟩ := newTask_shape s task
  rw [heq]
  exact ⟨_, rfl⟩

theorem newTask_counts (s : SystemTray) (task : String) :
    (s.newTask task).m_dbusServiceCounts = s.m_dbusServiceCounts := by
  obtain ⟨fx, added, known, m, heq, -⟩ := newTask_shape s task
  rw [heq]

theorem newTask_config (s : SystemTray) (task : String) :
    (s.newTask task).config = s.config := by
  obtain ⟨fx, added, known, m, heq, -⟩ := newTask_shape s task
  rw [heq]

theorem newTask_frame (s : SystemTray) (task plugin : String) (hne : task ≠ plugin) :
    Frame plugin s (s.newTask task) := by
  obtain ⟨fx, added, known, m, heq, hcases⟩ := newTask_shape s task
  have hb : (task == plugin) = false := by simpa using hne
  rw [heq]
  rcases hcases with ⟨ha, hk, hfx⟩ | ⟨id, ha, hfx, -, -, hk⟩
  · subst ha hk
    refine ⟨by simp [appletsOf], rfl, rfl, ?_⟩
    rcases hfx with hfx | hfx <;> subst hfx <;> simp [List.filter_append, concerns, hb, List.filter_cons]
  · subst ha hfx
    refine ⟨by simp [appletsOf, List.filter_append, loaded, List.filter_cons, hb], rfl, ?_, ?_⟩
    · rcases hk with ⟨-, -, hk⟩ | ⟨-, -, hk⟩
      · subst hk; rfl
      · subst hk
        exact QHash.lookup_insert_other _ _ _ _ (fun h => hne h.symm)
    · simp [List.filter_append, concerns, hb, List.filter_cons, loaded]

theorem cleanupTask_static (s : SystemTray) (task : String) : Static s (s.cleanupTask task) :=
  ⟨rfl, rfl, rfl, rfl, rfl, rfl, rfl⟩

theorem cleanupTask_log (s : SystemTray) (task : String) :
    (s.cleanupTask task).log = s.log ++ Effect.cleanupTask task ::
      (s.applets.filter (isTask task)).flatMap (fun applet =>
        [Effect.deleteLater applet, Effect.appletDeleted applet]) := by
  simp [cleanupTask, record, List.append_assoc]

theorem cleanupTask_logExt (s : SystemTray) (task : String) : LogExt s (s.cleanupTask task) :=
  ⟨_, cleanupTask_log s task⟩

theorem cleanupTask_frame (s : SystemTray) (task plugin : String) (hne : task ≠ plugin) :
    Frame plugin s (s.cleanupTask task) := by
  have hb : (task == plugin) = false := by simpa using hne
  have hnot : ∀ a : Applet, (a.pluginId == plugin) = true → isTask task a = false := by
    intro a ha
    have : a.pluginId = plugin := by simpa using ha
    have h2 : (task == a.pluginId) = false := by rw [this]; exact hb
    simp [isTask, h2]
  refine ⟨?_, rfl, rfl, ?_⟩
  · simp only [appletsOf, cleanupTask, record]
    split_ifs
    · apply filter_filter_of_imp
      intro a ha
      simp [hnot a ha]
    · apply filter_map_fixed
      · intro a
        split_ifs <;> rfl
      · intro a ha
        simp [hnot a ha]
  · simp only [cleanupTask, record, List.filter_append, List.append_assoc]
    rw [filter_flatMap_nil]
    · simp [concerns, List.filter_cons, hb]
    · intro a ha e he
      have hta : isTask task a = true := (List.mem_filter.mp ha).2
      have hpa : (a.pluginId == plugin) = false := by
        cases hp : (a.pluginId == plugin)
        · rfl
        · rw [hnot a hp] at hta; cases hta
      simp only [List.mem_cons, List.mem_singleton, List.not_mem_nil, or_false] at he
      rcases he with he | he <;> subst he <;> simp [concerns, hpa]

end SystemTray

namespace SystemTray

/-- A relation that is reflexive, transitive and established by the loop body
holds across the loop. -/
theorem foldl_rel {α : Type} (R : SystemTray → SystemTray → Prop)
    (hrefl : ∀ s, R s s) (htrans : ∀ s t u, R s t → R t u → R s u)
    (f : SystemTray → α → SystemTray) (l : List α)
    (hstep : ∀ s a, a ∈ l → R s (f s a)) (s : SystemTray) : R s (l.foldl f s) :=
  foldl_invariant (fun t => R s t) f l
    (fun b a ha hb => htrans s b (f b a) hb (hstep b a ha)) s (hrefl s)

theorem no_live_of_absent (s : SystemTray) (plugin : String) (h : s.appletsOf plugin = []) :
    s.applets.any (fun applet =>
      applet.valid && (plugin == applet.pluginId) && !applet.destroyed) = false := by
  rw [List.any_eq_false]
  intro a ha hc
  have hp : a.pluginId = plugin := by
    simp only [Bool.and_eq_true, beq_iff_eq] at hc
    exact hc.1.2.symm
  have : a ∈ s.appletsOf plugin := by
    simp [appletsOf, List.mem_filter, ha, hp]
  rw [h] at this
  cases this

theorem lookup_of_contains {V : Type} (h : QHash V) (key : String) (d : V)
    (hc : QHash.contains h key = true) : List.lookup key h = some (QHash.value h key d) := by
  unfold QHash.contains at hc
  unfold QHash.value
  cases hl : List.lookup key h
  · rw [hl] at hc; cases hc
  · rfl

theorem lookup_of_not_contains {V : Type} (h : QHash V) (key : String)
    (hc : QHash.contains h key = false) : List.lookup key h = none := by
  unfold QHash.contains at hc
  cases hl : List.lookup key h
  · rfl
  · rw [hl] at hc; cases hc

/-- A call of `newTask` for a plugin that can be instantiated and has no live applet adds
exactly one applet; its id is the known one when there is one, and is the known
one afterwards. -/
theorem newTask_creates (s : SystemTray) (plugin : String)
    (hno : s.applets.any (fun applet =>
      applet.valid && (plugin == applet.pluginId) && !applet.destroyed) = false)
    (hinst : plugin ∈ s.installed) :
    ∃ id, (s.newTask plugin).applets = s.applets ++ [loaded plugin id] ∧
      (s.newTask plugin).log =
        s.log ++ [Effect.newTask plugin, Effect.addApplet (loaded plugin id)] ∧
      List.lookup plugin (s.newTask plugin).m_knownPlugins = some id ∧
      (∀ k, List.lookup plugin s.m_knownPlugins = some k → id = k) ∧
      (∀ q, q ≠ plugin → List.lookup q (s.newTask plugin).m_knownPlugins =
        List.lookup q s.m_knownPlugins) := by
  cases hk : QHash.contains s.m_knownPlugins plugin
  · refine ⟨s.s_maxAppletId + 1, ?_⟩
    rw [newTask_unknown s plugin hno hk hinst]
    refine ⟨by simp [addApplet, record], by simp [addApplet, record],
      QHash.lookup_insert_self _ _ _, ?_, ?_⟩
    · intro k hk2
      rw [lookup_of_not_contains _ _ hk] at hk2
      cases hk2
    · intro q hq
      exact QHash.lookup_insert_other _ _ _ _ hq
  · refine ⟨QHash.value s.m_knownPlugins plugin 0, ?_⟩
    rw [newTask_known s plugin hno hk hinst]
    refine ⟨by simp [addApplet, record], by simp [addApplet, record], ?_, ?_, ?_⟩
    · exact lookup_of_contains _ _ 0 hk
    · intro k hk2
      rw [lookup_of_contains _ _ 0 hk] at hk2
      exact Option.some.inj hk2
    · intro q _
      rfl

theorem registeredStep_skip (service : String) (s : SystemTray) (it : String × QRegExp)
    (h : it.1 ∉ s.m_allowedPlasmoids ∨ it.2.exactMatch service = false) :
    registeredStep service s it = s := by
  unfold registeredStep
  rcases h with h | h
  · simp [h]
  · simp [h]

theorem registeredStep_hit (service : String) (s : SystemTray) (it : String × QRegExp)
    (h1 : it.1 ∈ s.m_allowedPlasmoids) (h2 : it.2.exactMatch service = true) :
    registeredStep service s it =
      (s.newTask it.1).setCount it.1 ((s.newTask it.1).count it.1 + 1) := by
  unfold registeredStep
  simp [h1, h2]

theorem count_setCount_self (s : SystemTray) (plugin : String) (n : Int) :
    (s.setCount plugin n).count plugin = n := by
  simp [count, setCount, QHash.value_insert_self]

theorem count_setCount_other (s : SystemTray) (plugin q : String) (n : Int) (hne : q ≠ plugin) :
    (s.setCount plugin n).count q = s.count q := by
  simp [count, setCount, QHash.value_insert_other _ _ _ _ _ hne]

theorem count_record (s : SystemTray) (e : Effect) (q : String) :
    (s.record e).count q = s.count q := rfl

theorem count_newTask (s : SystemTray) (task q : String) :
    (s.newTask task).count q = s.count q := by
  simp [count, newTask_counts]

theorem count_cleanupTask (s : SystemTray) (task q : String) :
    (s.cleanupTask task).count q = s.count q := rfl

theorem registeredStep_static (service : String) (s : SystemTray) (it : String × QRegExp) :
    Static s (registeredStep service s it) := by
  by_cases h1 : it.1 ∈ s.m_allowedPlasmoids
  · cases h2 : it.2.exactMatch service
    · rw [registeredStep_skip service s it (Or.inr h2)]; exact Static.srefl s
    · rw [registeredStep_hit service s it h1 h2]
      have h := newTask_static s it.1
      exact ⟨h.1, h.2, h.3, h.4, h.5, h.6, h.7⟩
  · rw [registeredStep_skip service s it (Or.inl h1)]; exact Static.srefl s

theorem registeredStep_logExt (service : String) (s : SystemTray) (it : String × QRegExp) :
    LogExt s (registeredStep service s it) := by
  by_cases h1 : it.1 ∈ s.m_allowedPlasmoids
  · cases h2 : it.2.exactMatch service
    · rw [registeredStep_skip service s it (Or.inr h2)]; exact LogExt.lrefl s
    · rw [registeredStep_hit service s it h1 h2]
      exact newTask_logExt s it.1
  · rw [registeredStep_skip service s it (Or.inl h1)]; exact LogExt.lrefl s

theorem registeredStep_frame (service plugin : String) (s : SystemTray) (it : String × QRegExp)
    (hne : it.1 ≠ plugin) : Frame plugin s (registeredStep service s it) := by
  by_cases h1 : it.1 ∈ s.m_allowedPlasmoids
  · cases h2 : it.2.exactMatch service
    · rw [registeredStep_skip service s it (Or.inr h2)]; exact Frame.frefl plugin s
    · rw [registeredStep_hit service s it h1 h2]
      have h := newTask_frame s it.1 plugin hne
      refine ⟨h.1, ?_, h.3, h.4⟩
      rw [count_setCount_other _ _ _ _ (fun h => hne h.symm)]
      exact h.2
  · rw [registeredStep_skip service s it (Or.inl h1)]; exact Frame.frefl plugin s

theorem unregisteredStep_skip (service : String) (s : SystemTray) (it : String × QRegExp)
    (h : it.1 ∉ s.m_allowedPlasmoids ∨ it.2.exactMatch service = false) :
    unregisteredStep service s it = s := by
  unfold unregisteredStep
  rcases h with h | h
  · simp [h]
  · simp [h]

/-- The state after the decrement and the assertion in `serviceUnregistered`. -/
theorem unregisteredStep_hit (service : String) (s : SystemTray) (it : String × QRegExp)
    (h1 : it.1 ∈ s.m_allowedPlasmoids) (h2 : it.2.exactMatch service = true) :
    unregisteredStep service s it =
      (let s1 := s.setCount it.1 (s.count it.1 - 1)
       let s2 := if s.count it.1 - 1 ≥ 0 then s1 else s1.record (Effect.assertFailed it.1)
       if s.count it.1 - 1 = 0 then s2.cleanupTask it.1 else s2) := by
  unfold unregisteredStep
  have h3 : (!s.m_allowedPlasmoids.contains it.1) = false := by simp [h1]
  simp only [h3, h2, count_setCount_self, Bool.false_eq_true, if_false, if_true, ge_iff_le]
  by_cases hc : 0 ≤ s.count it.1 - 1
  · simp only [hc, if_true, count_setCount_self]
  · simp only [hc, if_false, count_record, count_setCount_self]

end SystemTray

namespace SystemTray

theorem setCount_static (s : SystemTray) (plugin : String) (n : Int) :
    Static s (s.setCount plugin n) :=
  ⟨rfl, rfl, rfl, rfl, rfl, rfl, rfl⟩

theorem setCount_logExt (s : SystemTray) (plugin : String) (n : Int) :
    LogExt s (s.setCount plugin n) := ⟨[], by simp [setCount]⟩

theorem setCount_frame (s : SystemTray) (plugin q : String) (n : Int) (hne : q ≠ plugin) :
    Frame plugin s (s.setCount q n) :=
  ⟨rfl, count_setCount_other s q plugin n (fun h => hne h.symm), rfl, rfl⟩

theorem record_frame (s : SystemTray) (plugin : String) (e : Effect)
    (h : concerns plugin e = false) : Frame plugin s (s.record e) :=
  ⟨rfl, rfl, rfl, by simp [record, List.filter_append, List.filter_cons, h]⟩

theorem unregisteredStep_static (service : String) (s : SystemTray) (it : String × QRegExp) :
    Static s (unregisteredStep service s it) := by
  by_cases h1 : it.1 ∈ s.m_allowedPlasmoids
  · cases h2 : it.2.exactMatch service
    · rw [unregisteredStep_skip service s it (Or.inr h2)]; exact Static.srefl s
    · rw [unregisteredStep_hit service s it h1 h2]
      simp only []
      split_ifs
      · exact (setCount_static s _ _).strans (cleanupTask_static _ _)
      · exact ((setCount_static s _ _).strans (record_static _ _)).strans (cleanupTask_static _ _)
      · exact setCount_static s _ _
      · exact (setCount_static s _ _).strans (record_static _ _)
  · rw [unregisteredStep_skip service s it (Or.inl h1)]; exact Static.srefl s

theorem unregisteredStep_logExt (service : String) (s : SystemTray) (it : String × QRegExp) :
    LogExt s (unregisteredStep service s it) := by
  by_cases h1 : it.1 ∈ s.m_allowedPlasmoids
  · cases h2 : it.2.exactMatch service
    · rw [unregisteredStep_skip service s it (Or.inr h2)]; exact LogExt.lrefl s
    · rw [unregisteredStep_hit service s it h1 h2]
      simp only []
      split_ifs
      · exact (setCount_logExt s _ _).ltrans (cleanupTask_logExt _ _)
      · exact ((setCount_logExt s _ _).ltrans (record_logExt _ _)).ltrans (cleanupTask_logExt _ _)
      · exact setCount_logExt s _ _
      · exact (setCount_logExt s _ _).ltrans (record_logExt _ _)
  · rw [unregisteredStep_skip service s it (Or.inl h1)]; exact LogExt.lrefl s

theorem unregisteredStep_frame (service plugin : String) (s : SystemTray)
    (it : String × QRegExp) (hne : it.1 ≠ plugin) :
    Frame plugin s (unregisteredStep service s it) := by
  have hb : concerns plugin (Effect.assertFailed it.1) = false := by
    simpa [concerns] using hne
  by_cases h1 : it.1 ∈ s.m_allowedPlasmoids
  · cases h2 : it.2.exactMatch service
    · rw [unregisteredStep_skip service s it (Or.inr h2)]; exact Frame.frefl plugin s
    · rw [unregisteredStep_hit service s it h1 h2]
      simp only []
      split_ifs
      · exact (setCount_frame s _ _ _ hne).ftrans (cleanupTask_frame _ _ _ hne)
      · exact ((setCount_frame s _ _ _ hne).ftrans (record_frame _ _ _ hb)).ftrans
          (cleanupTask_frame _ _ _ hne)
      · exact setCount_frame s _ _ _ hne
      · exact (setCount_frame s _ _ _ hne).ftrans (record_frame _ _ _ hb)
  · rw [unregisteredStep_skip service s it (Or.inl h1)]; exact Frame.frefl plugin s

/-- A loop over the activatable plugins whose body leaves the other plugins
alone: what it does to `plugin` is what the body does at the one entry of
`plugin`, applied to a state that agrees with the initial one on `plugin`. -/
theorem fold_at_key (f : SystemTray → String × QRegExp → SystemTray) (plugin : String)
    (rx : QRegExp)
    (hframe : ∀ s it, it.1 ≠ plugin → Frame plugin s (f s it))
    (hstatic : ∀ s it, Static s (f s it)) (hlog : ∀ s it, LogExt s (f s it))
    (l : List (String × QRegExp)) (hkeys : (l.map Prod.fst).Nodup) (hmem : (plugin, rx) ∈ l)
    (s : SystemTray) :
    ∃ s1, Frame plugin s s1 ∧ Static s s1 ∧ LogExt s s1 ∧
      Frame plugin (f s1 (plugin, rx)) (l.foldl f s) ∧
      Static (f s1 (plugin, rx)) (l.foldl f s) ∧
      LogExt (f s1 (plugin, rx)) (l.foldl f s) := by
  obtain ⟨l1, l2, hl⟩ := List.append_of_mem hmem
  subst hl
  rw [List.map_append, List.map_cons, List.nodup_append] at hkeys
  obtain ⟨-, hn2, hdisj⟩ := hkeys
  have hl1 : ∀ it ∈ l1, it.1 ≠ plugin := by
    intro it hit heq
    exact hdisj (List.mem_map_of_mem Prod.fst hit) (by simp [heq])
  have hl2 : ∀ it ∈ l2, it.1 ≠ plugin := by
    intro it hit heq
    have := (List.nodup_cons.mp hn2).1
    have h3 : it.1 ∈ l2.map Prod.fst := List.mem_map_of_mem Prod.fst hit
    rw [heq] at h3
    exact this h3
  refine ⟨l1.foldl f s, ?_, ?_, ?_, ?_, ?_, ?_⟩
  · exact foldl_rel (Frame plugin) (Frame.frefl plugin) (fun _ _ _ => Frame.ftrans) f l1
      (fun s it hit => hframe s it (hl1 it hit)) s
  · exact foldl_rel Static Static.srefl (fun _ _ _ => Static.strans) f l1
      (fun s it _ => hstatic s it) s
  · exact foldl_rel LogExt LogExt.lrefl (fun _ _ _ => LogExt.ltrans) f l1
      (fun s it _ => hlog s it) s
  · rw [List.foldl_append, List.foldl_cons]
    exact foldl_rel (Frame plugin) (Frame.frefl plugin) (fun _ _ _ => Frame.ftrans) f l2
      (fun s it hit => hframe s it (hl2 it hit)) _
  · rw [List.foldl_append, List.foldl_cons]
    exact foldl_rel Static Static.srefl (fun _ _ _ => Static.strans) f l2
      (fun s it _ => hstatic s it) _
  · rw [List.foldl_append, List.foldl_cons]
    exact foldl_rel LogExt LogExt.lrefl (fun _ _ _ => LogExt.ltrans) f l2
      (fun s it _ => hlog s it) _

theorem serviceRegistered_static (s : SystemTray) (service : String) :
    Static s (s.serviceRegistered service) := by
  unfold serviceRegistered
  split_ifs
  · exact Static.srefl s
  · exact foldl_rel Static Static.srefl (fun _ _ _ => Static.strans) _ _
      (fun s it _ => registeredStep_static service s it) s

theorem serviceRegistered_logExt (s : SystemTray) (service : String) :
    LogExt s (s.serviceRegistered service) := by
  unfold serviceRegistered
  split_ifs
  · exact LogExt.lrefl s
  · exact foldl_rel LogExt LogExt.lrefl (fun _ _ _ => LogExt.ltrans) _ _
      (fun s it _ => registeredStep_logExt service s it) s

theorem serviceUnregistered_static (s : SystemTray) (service : String) :
    Static s (s.serviceUnregistered service) :=
  foldl_rel Static Static.srefl (fun _ _ _ => Static.strans) _ _
    (fun s it _ => unregisteredStep_static service s it) s

theorem serviceUnregistered_logExt (s : SystemTray) (service : String) :
    LogExt s (s.serviceUnregistered service) :=
  foldl_rel LogExt LogExt.lrefl (fun _ _ _ => LogExt.ltrans) _ _
    (fun s it _ => unregisteredStep_logExt service s it) s

end SystemTray

namespace SystemTray

theorem any_live_appletsOf (s : SystemTray) (plugin : String) :
    s.applets.any (fun applet =>
      applet.valid && (plugin == applet.pluginId) && !applet.destroyed) =
    (s.appletsOf plugin).any (fun applet =>
      applet.valid && (plugin == applet.pluginId) && !applet.destroyed) := by
  unfold appletsOf
  rw [List.any_filter]
  congr 1
  funext a
  by_cases h : a.pluginId = plugin
  · simp [h]
  · have h1 : (a.pluginId == plugin) = false := by simpa using h
    have h2 : (plugin == a.pluginId) = false := by simpa using fun h3 => h h3.symm
    simp [h1, h2]

theorem filter_isTask_appletsOf (s : SystemTray) (plugin : String) :
    s.applets.filter (isTask plugin) = (s.appletsOf plugin).filter (isTask plugin) := by
  unfold appletsOf
  rw [filter_filter_of_imp]
  intro a ha
  simp only [isTask, Bool.and_eq_true, beq_iff_eq] at ha
  simp [ha.2]

/-- The state that `serviceRegistered` hands to the loop body at the entry of
`plugin`, and what the rest of the loop keeps of the result. -/
theorem serviceRegistered_at (s : SystemTray) (service plugin : String) (rx : QRegExp)
    (hkeys : (s.m_dbusActivatableTasks.map Prod.fst).Nodup)
    (hmem : (plugin, rx) ∈ s.m_dbusActivatableTasks)
    (hallowed : plugin ∈ s.m_allowedPlasmoids) (hmatch : rx.exactMatch service = true)
    (hcolon : QString.startsWith service ':' = false) :
    ∃ s1, Frame plugin s s1 ∧ Static s s1 ∧
      Frame plugin ((s1.newTask plugin).setCount plugin (s1.count plugin + 1))
        (s.serviceRegistered service) := by
  obtain ⟨s1, hf, hs, -, hf2, -, -⟩ := fold_at_key (registeredStep service) plugin rx
    (fun s it h => registeredStep_frame service plugin s it h)
    (registeredStep_static service) (registeredStep_logExt service)
    s.m_dbusActivatableTasks hkeys hmem s
  refine ⟨s1, hf, hs, ?_⟩
  have ha : plugin ∈ s1.m_allowedPlasmoids := by rw [hs.m_allowedPlasmoids]; exact hallowed
  rw [registeredStep_hit service s1 (plugin, rx) ha hmatch] at hf2
  simp only [serviceRegistered, hcolon, Bool.false_eq_true, if_false]
  simp only [count_newTask] at hf2
  exact hf2

/-- The call `serviceRegistered` for a matching allowed plugin without applet: one applet
is created for it and its count goes up by one. -/
theorem serviceRegistered_absent (s : SystemTray) (service plugin : String) (rx : QRegExp)
    (hkeys : (s.m_dbusActivatableTasks.map Prod.fst).Nodup)
    (hmem : (plugin, rx) ∈ s.m_dbusActivatableTasks)
    (hallowed : plugin ∈ s.m_allowedPlasmoids) (hmatch : rx.exactMatch service = true)
    (hcolon : QString.startsWith service ':' = false)
    (habsent : s.appletsOf plugin = []) (hinst : plugin ∈ s.installed) :
    ∃ id, (s.serviceRegistered service).appletsOf plugin = [loaded plugin id] ∧
      (s.serviceRegistered service).count plugin = s.count plugin + 1 ∧
      effectsFor plugin s (s.serviceRegistered service) =
        [Effect.newTask plugin, Effect.addApplet (loaded plugin id)] ∧
      List.lookup plugin (s.serviceRegistered service).m_knownPlugins = some id ∧
      (∀ k, List.lookup plugin s.m_knownPlugins = some k → id = k) := by
  obtain ⟨s1, hf, hs, hf2⟩ := serviceRegistered_at s service plugin rx hkeys hmem hallowed
    hmatch hcolon
  have hno := no_live_of_absent s1 plugin (by rw [hf.applets]; exact habsent)
  obtain ⟨id, happ, hlog, hknown, hk2, -⟩ := newTask_creates s1 plugin hno
    (by rw [hs.installed]; exact hinst)
  refine ⟨id, ?_, ?_, ?_, ?_, ?_⟩
  · rw [hf2.applets]
    show ((s1.newTask plugin).applets).filter _ = _
    rw [happ, List.filter_append]
    have h1 : s1.applets.filter (fun applet => applet.pluginId == plugin) = [] := by
      have := hf.applets
      unfold appletsOf at this
      rw [this]; exact habsent
    rw [h1]
    simp [loaded]
  · rw [hf2.count, count_setCount_self, hf.count]
  · apply effectsFor_of_filter plugin (serviceRegistered_logExt s service)
    rw [hf2.log]
    show ((s1.newTask plugin).log).filter _ = _
    rw [hlog, List.filter_append, hf.log]
    simp [concerns, loaded]
  · rw [hf2.known]
    exact hknown
  · intro k hk
    exact hk2 k (by rw [hf.known]; exact hk)

/-- The call `serviceRegistered` for a matching allowed plugin with a live applet:
`newTask` is called and does nothing, the count goes up by one. -/
theorem serviceRegistered_running (s : SystemTray) (service plugin : String) (rx : QRegExp)
    (hkeys : (s.m_dbusActivatableTasks.map Prod.fst).Nodup)
    (hmem : (plugin, rx) ∈ s.m_dbusActivatableTasks)
    (hallowed : plugin ∈ s.m_allowedPlasmoids) (hmatch : rx.exactMatch service = true)
    (hcolon : QString.startsWith service ':' = false)
    (hrun : s.applets.any (fun applet =>
      applet.valid && (plugin == applet.pluginId) && !applet.destroyed) = true) :
    (s.serviceRegistered service).appletsOf plugin = s.appletsOf plugin ∧
      (s.serviceRegistered service).count plugin = s.count plugin + 1 ∧
      effectsFor plugin s (s.serviceRegistered service) = [Effect.newTask plugin] ∧
      List.lookup plugin (s.serviceRegistered service).m_knownPlugins =
        List.lookup plugin s.m_knownPlugins := by
  obtain ⟨s1, hf, hs, hf2⟩ := serviceRegistered_at s service plugin rx hkeys hmem hallowed
    hmatch hcolon
  have hrun1 : s1.applets.any (fun applet =>
      applet.valid && (plugin == applet.pluginId) && !applet.destroyed) = true := by
    rw [any_live_appletsOf, hf.applets, ← any_live_appletsOf]
    exact hrun
  have hnt := newTask_running s1 plugin hrun1
  rw [hnt] at hf2
  refine ⟨?_, ?_, ?_, ?_⟩
  · rw [hf2.applets]
    exact hf.applets
  · rw [hf2.count, count_setCount_self, hf.count]
  · apply effectsFor_of_filter plugin (serviceRegistered_logExt s service)
    rw [hf2.log]
    show ((s1.record (Effect.newTask plugin)).log).filter _ = _
    simp only [record, List.filter_append, hf.log]
    simp [concerns]
  · rw [hf2.known]
    exact hf.known

/-- The state that `serviceUnregistered` hands to the loop body at the entry of
`plugin`, and what the rest of the loop keeps of the result. -/
theorem serviceUnregistered_at (s : SystemTray) (service plugin : String) (rx : QRegExp)
    (hkeys : (s.m_dbusActivatableTasks.map Prod.fst).Nodup)
    (hmem : (plugin, rx) ∈ s.m_dbusActivatableTasks)
    (hallowed : plugin ∈ s.m_allowedPlasmoids) :
    ∃ s1, Frame plugin s s1 ∧ Static s s1 ∧
      Frame plugin (unregisteredStep service s1 (plugin, rx))
        (s.serviceUnregistered service) ∧ plugin ∈ s1.m_allowedPlasmoids := by
  obtain ⟨s1, hf, hs, -, hf2, -, -⟩ := fold_at_key (unregisteredStep service) plugin rx
    (fun s it h => unregisteredStep_frame service plugin s it h)
    (unregisteredStep_static service) (unregisteredStep_logExt service)
    s.m_dbusActivatableTasks hkeys hmem s
  exact ⟨s1, hf, hs, hf2, by rw [hs.m_allowedPlasmoids]; exact hallowed⟩

/-- The call `serviceUnregistered` for a matching allowed plugin: the count goes down by
one; `cleanupTask` runs exactly when the new count is 0, the assertion fails
exactly when it is negative. -/
theorem serviceUnregistered_spec (s : SystemTray) (service plugin : String) (rx : QRegExp)
    (hkeys : (s.m_dbusActivatableTasks.map Prod.fst).Nodup)
    (hmem : (plugin, rx) ∈ s.m_dbusActivatableTasks)
    (hallowed : plugin ∈ s.m_allowedPlasmoids) (hmatch : rx.exactMatch service = true) :
    (s.serviceUnregistered service).count plugin = s.count plugin - 1 ∧
    effectsFor plugin s (s.serviceUnregistered service) =
      (if s.count plugin - 1 = 0 then
        Effect.cleanupTask plugin ::
          ((s.appletsOf plugin).filter (isTask plugin)).flatMap (fun applet =>
            [Effect.deleteLater applet, Effect.appletDeleted applet])
       else if s.count plugin - 1 < 0 then [Effect.assertFailed plugin] else []) ∧
    (s.count plugin - 1 ≠ 0 →
      (s.serviceUnregistered service).appletsOf plugin = s.appletsOf plugin) := by
  obtain ⟨s1, hf, hs, hf2, ha⟩ := serviceUnregistered_at s service plugin rx hkeys hmem
    hallowed
  rw [unregisteredStep_hit service s1 (plugin, rx) ha hmatch] at hf2
  simp only [hf.count] at hf2
  have hext := serviceUnregistered_logExt s service
  by_cases h0 : s.count plugin - 1 = 0
  · have hge : s.count plugin - 1 ≥ 0 := by omega
    simp only [h0, hge, if_true, ge_iff_le, le_refl] at hf2 ⊢
    refine ⟨?_, ?_, fun h => absurd rfl h⟩
    · rw [hf2.count, count_cleanupTask, count_setCount_self]
    · apply effectsFor_of_filter plugin hext
      rw [hf2.log, cleanupTask_log]
      show (s1.log ++ _).filter _ = _
      have h3 : (s1.setCount plugin 0).applets = s1.applets := rfl
      rw [h3, List.filter_append, hf.log, filter_isTask_appletsOf, hf.applets]
      congr 1
      rw [List.filter_cons]
      have h4 : concerns plugin (Effect.cleanupTask plugin) = true := by simp [concerns]
      rw [if_pos h4]
      congr 1
      rw [List.filter_eq_self]
      intro e he
      obtain ⟨a, ha, hea⟩ := List.mem_flatMap.mp he
      have hp : a.pluginId = plugin := by
        have := (List.mem_filter.mp (List.mem_filter.mp ha).1).2
        simpa using this
      simp only [List.mem_cons, List.mem_singleton, List.not_mem_nil, or_false] at hea
      rcases hea with hea | hea <;> subst hea <;> simp [concerns, hp]
  · simp only [h0, if_false] at hf2 ⊢
    by_cases hneg : s.count plugin - 1 < 0
    · have hge : ¬ s.count plugin - 1 ≥ 0 := by omega
      simp only [hge, hneg, if_false, if_true] at hf2 ⊢
      refine ⟨?_, ?_, fun _ => ?_⟩
      · rw [hf2.count, count_record, count_setCount_self]
      · apply effectsFor_of_filter plugin hext
        rw [hf2.log]
        show (s1.log ++ _).filter _ = _
        rw [List.filter_append, hf.log]
        simp [concerns]
      · rw [hf2.applets]; exact hf.applets
    · have hge : s.count plugin - 1 ≥ 0 := by omega
      simp only [hge, hneg, if_false, if_true] at hf2 ⊢
      refine ⟨?_, ?_, fun _ => ?_⟩
      · rw [hf2.count, count_setCount_self]
      · apply effectsFor_of_filter plugin hext
        rw [hf2.log]
        show (s1.log).filter _ = _
        rw [hf.log]
        simp
      · rw [hf2.applets]; exact hf.applets

end SystemTray

namespace SystemTray

theorem restorePlasmoids_eq (s : SystemTray) (hcont : s.isContainment = true) :
    s.restorePlasmoids =
      ((sortedApplets (s.record Effect.restorePlasmoids).removeNotAllowed.loadKnownPlugins).foldl
        addSorted (s.record Effect.restorePlasmoids).removeNotAllowed.loadKnownPlugins).record
        Effect.initDBusActivatables := by
  unfold restorePlasmoids
  simp [hcont]

theorem setAllowedPlasmoids_of_ne (s : SystemTray) (allowed : List String)
    (h : ¬ allowed = s.m_allowedPlasmoids) :
    s.setAllowedPlasmoids allowed =
      (restorePlasmoids { s with m_allowedPlasmoids := allowed }).record
        Effect.allowedPlasmoidsChanged := by
  unfold setAllowedPlasmoids
  rw [if_neg h]

theorem removeNotAllowed_static (s : SystemTray) : Static s s.removeNotAllowed :=
  ⟨rfl, rfl, rfl, rfl, rfl, rfl, rfl⟩

theorem removeNotAllowed_logExt (s : SystemTray) : LogExt s s.removeNotAllowed := ⟨_, rfl⟩

theorem loadKnownPlugins_static (s : SystemTray) : Static s s.loadKnownPlugins :=
  ⟨rfl, rfl, rfl, rfl, rfl, rfl, rfl⟩

theorem addSorted_static (s : SystemTray) (it : String × KPluginMetaData) :
    Static s (addSorted s it) := by
  unfold addSorted
  split_ifs
  · exact newTask_static s _
  · exact Static.srefl s

theorem addSorted_logExt (s : SystemTray) (it : String × KPluginMetaData) :
    LogExt s (addSorted s it) := by
  unfold addSorted
  split_ifs
  · exact newTask_logExt s _
  · exact LogExt.lrefl s

theorem addSorted_counts (s : SystemTray) (it : String × KPluginMetaData) :
    (addSorted s it).m_dbusServiceCounts = s.m_dbusServiceCounts := by
  unfold addSorted
  split_ifs
  · exact newTask_counts s _
  · rfl

theorem restorePlasmoids_static (s : SystemTray) : Static s s.restorePlasmoids := by
  by_cases hcont : s.isContainment = true
  · rw [restorePlasmoids_eq s hcont]
    refine Static.strans ?_ (record_static _ _)
    refine Static.strans ?_ (foldl_rel Static Static.srefl (fun _ _ _ => Static.strans) addSorted _
      (fun t it _ => addSorted_static t it) _)
    exact ((record_static s _).strans (removeNotAllowed_static _)).strans
      (loadKnownPlugins_static _)
  · unfold restorePlasmoids
    simp only [hcont, Bool.not_eq_true', if_true, Bool.not_false]
    exact record_static s _

theorem restorePlasmoids_counts (s : SystemTray) :
    s.restorePlasmoids.m_dbusServiceCounts = s.m_dbusServiceCounts := by
  by_cases hcont : s.isContainment = true
  · rw [restorePlasmoids_eq s hcont]
    show (List.foldl addSorted _ _).m_dbusServiceCounts = _
    exact foldl_invariant
      (fun t : SystemTray => t.m_dbusServiceCounts = s.m_dbusServiceCounts) addSorted _
      (fun t it _ ht => (addSorted_counts t it).trans ht) _ rfl
  · unfold restorePlasmoids
    simp [hcont, record]

/-- The loop over the sorted applets keeps every invariant that `newTask` keeps
for allowed plugins. -/
theorem restorePlasmoids_fold_invariant (I : SystemTray → Prop) (s : SystemTray)
    (l : List (String × KPluginMetaData))
    (hstep : ∀ t task, task ∈ t.m_allowedPlasmoids → I t → I (t.newTask task))
    (h : I s) : I (l.foldl addSorted s) := by
  refine foldl_invariant I addSorted l ?_ s h
  intro t it _ ht
  unfold addSorted
  split_ifs with hc
  · exact hstep t _ (by simpa using hc) ht
  · exact ht

theorem readKnownPlugins_lookup (known : QHash Nat) (groups : List (Nat × String))
    (plugin : String) (id : Nat) (hgroups : ∀ g ∈ groups, g.2 = plugin → g.1 = id)
    (h : List.lookup plugin known = some id) :
    List.lookup plugin (readKnownPlugins known groups) = some id := by
  unfold readKnownPlugins
  refine foldl_invariant (fun m : QHash Nat => List.lookup plugin m = some id) _ groups ?_ known h
  intro m g hg hm
  simp only []
  split_ifs
  · by_cases hp : g.2 = plugin
    · rw [hp, hgroups g hg hp]
      exact QHash.lookup_insert_self _ _ _
    · rw [QHash.lookup_insert_other _ _ _ _ (fun h => hp h.symm)]
      exact hm
  · exact hm

theorem removeNotAllowed_appletsOf (s : SystemTray) (plugin : String) :
    s.removeNotAllowed.appletsOf plugin =
      (s.appletsOf plugin).map (fun applet =>
        if notAllowedAnymore s.m_allowedPlasmoids applet then
          { applet with deleteLater := true } else applet) := by
  simp only [appletsOf, removeNotAllowed, List.filter_map]
  congr 1
  apply List.filter_congr
  intro a _
  simp only [Function.comp]
  split_ifs <;> rfl

theorem removeNotAllowed_config_subset (s : SystemTray) :
    ∀ g ∈ s.removeNotAllowed.config, g ∈ s.config := by
  intro g hg
  exact (List.mem_filter.mp hg).1

theorem init_static_tasks (s : SystemTray) (infos : List KPluginMetaData)
    (hkeys : (s.m_dbusActivatableTasks.map Prod.fst).Nodup) :
    ((s.init infos).m_dbusActivatableTasks.map Prod.fst).Nodup := by
  unfold init
  refine foldl_invariant
    (fun t : SystemTray => (t.m_dbusActivatableTasks.map Prod.fst).Nodup) initOne infos ?_ s
    hkeys
  intro t info _ ht
  unfold initOne
  simp only []
  split_ifs <;> first | exact ht | exact QHash.keys_nodup_insert _ _ _ ht

/-- No call changes the table of activation patterns or the catalogue. -/
theorem run_tables (s : SystemTray) (calls : List Call) :
    (s.run calls).m_dbusActivatableTasks = s.m_dbusActivatableTasks ∧
    (s.run calls).m_systrayApplets = s.m_systrayApplets := by
  unfold run
  refine foldl_invariant
    (fun t : SystemTray => t.m_dbusActivatableTasks = s.m_dbusActivatableTasks ∧
      t.m_systrayApplets = s.m_systrayApplets) step calls ?_ s ⟨rfl, rfl⟩
  intro t call _ ht
  have key : ∀ u : SystemTray, Static t u →
      u.m_dbusActivatableTasks = s.m_dbusActivatableTasks ∧
      u.m_systrayApplets = s.m_systrayApplets :=
    fun u hu => ⟨hu.m_dbusActivatableTasks.trans ht.1, hu.m_systrayApplets.trans ht.2⟩
  cases call with
  | newTask task => exact key _ (newTask_static t task)
  | cleanupTask task => exact key _ (cleanupTask_static t task)
  | setAllowedPlasmoids allowed =>
    by_cases h : allowed = t.m_allowedPlasmoids
    · simp only [step, setAllowedPlasmoids, if_pos h]
      exact ht
    · simp only [step]
      rw [setAllowedPlasmoids_of_ne t allowed h]
      have h2 := restorePlasmoids_static { t with m_allowedPlasmoids := allowed }
      exact ⟨h2.m_dbusActivatableTasks.trans ht.1, h2.m_systrayApplets.trans ht.2⟩
  | serviceRegistered service => exact key _ (serviceRegistered_static t service)
  | serviceUnregistered service => exact key _ (serviceUnregistered_static t service)
  | deferredDelete => exact ht
  | appletDestroy id => exact ht

end SystemTray

/-! ## C1: at most one instance per plugin -/

namespace SystemTray

theorem atMostOne_filter (l : List Applet) (q : Applet → Bool) (h : AtMostOne l) :
    AtMostOne (l.filter q) := by
  refine ⟨fun a ha => h.1 a (List.mem_filter.mp ha).1, fun plugin => ?_⟩
  exact le_trans (List.Sublist.countP_le _ (List.filter_sublist l)) (h.2 plugin)

theorem atMostOne_map (l : List Applet) (f : Applet → Applet) (h : AtMostOne l)
    (hvalid : ∀ a, (f a).valid = a.valid) (hplugin : ∀ a, (f a).pluginId = a.pluginId)
    (hdestroyed : ∀ a, a.destroyed = true → (f a).destroyed = true) :
    AtMostOne (l.map f) := by
  refine ⟨?_, fun plugin => ?_⟩
  · intro a ha
    obtain ⟨b, hb, rfl⟩ := List.mem_map.mp ha
    rw [hvalid]
    exact h.1 b hb
  · rw [List.countP_map]
    refine le_trans (List.countP_mono_left ?_) (h.2 plugin)
    intro a _ ha
    simp only [Function.comp, hplugin, Bool.and_eq_true, Bool.not_eq_true', beq_iff_eq] at ha ⊢
    refine ⟨ha.1, ?_⟩
    cases hd : a.destroyed
    · rfl
    · rw [hdestroyed a hd] at ha
      cases ha.2

theorem atMostOne_newTask (s : SystemTray) (task : String) (h : AtMostOne s.applets) :
    AtMostOne (s.newTask task).applets := by
  obtain ⟨fx, added, known, m, heq, hcases⟩ := newTask_shape s task
  rw [heq]
  rcases hcases with ⟨ha, -, -⟩ | ⟨id, ha, -, hno, -, -⟩
  · subst ha
    simpa using h
  · subst ha
    refine ⟨?_, fun plugin => ?_⟩
    · intro a ha
      rcases List.mem_append.mp ha with ha | ha
      · exact h.1 a ha
      · rw [List.mem_singleton.mp ha]; rfl
    · show List.countP _ (s.applets ++ [loaded task id]) ≤ 1
      rw [List.countP_append]
      by_cases hp : task = plugin
      · subst hp
        have hzero : s.applets.countP
            (fun applet => applet.pluginId == task && !applet.destroyed) = 0 := by
          rw [List.countP_eq_zero]
          intro a ha hc
          rw [List.any_eq_false] at hno
          apply hno a ha
          simp only [Bool.and_eq_true, beq_iff_eq, Bool.not_eq_true'] at hc ⊢
          exact ⟨⟨h.1 a ha, hc.1.symm⟩, hc.2⟩
        rw [hzero]
        simp [loaded, List.countP_cons]
      · have : (task == plugin) = false := by simpa using hp
        simp only [loaded, List.countP_cons, List.countP_nil, this, Bool.false_and,
          Bool.false_eq_true, if_false, add_zero]
        exact h.2 plugin

theorem atMostOne_cleanupTask (s : SystemTray) (task : String) (h : AtMostOne s.applets) :
    AtMostOne (s.cleanupTask task).applets := by
  simp only [cleanupTask, record]
  split_ifs
  · exact atMostOne_filter _ _ h
  · apply atMostOne_map _ _ h
    · intro a; split_ifs <;> rfl
    · intro a; split_ifs <;> rfl
    · intro a ha; split_ifs <;> exact ha

theorem atMostOne_restorePlasmoids (s : SystemTray) (h : AtMostOne s.applets) :
    AtMostOne s.restorePlasmoids.applets := by
  unfold restorePlasmoids
  split_ifs
  · exact h
  · simp only [record]
    refine foldl_invariant (fun t => AtMostOne t.applets) addSorted _ ?_ _ ?_
    · intro t it _ ht
      unfold addSorted
      split_ifs
      · exact atMostOne_newTask t _ ht
      · exact ht
    · simp only [loadKnownPlugins, removeNotAllowed]
      apply atMostOne_map _ _ h
      · intro a; split_ifs <;> rfl
      · intro a; split_ifs <;> rfl
      · intro a ha; split_ifs <;> exact ha

theorem atMostOne_step (s : SystemTray) (call : Call) (h : AtMostOne s.applets) :
    AtMostOne (s.step call).applets := by
  cases call with
  | newTask task => exact atMostOne_newTask s task h
  | cleanupTask task => exact atMostOne_cleanupTask s task h
  | setAllowedPlasmoids allowed =>
    simp only [step, setAllowedPlasmoids]
    split_ifs
    · exact h
    · exact atMostOne_restorePlasmoids _ h
  | serviceRegistered service =>
    simp only [step, serviceRegistered]
    split_ifs
    · exact h
    · refine foldl_invariant (fun t : SystemTray => AtMostOne t.applets) _ _ ?_ _ h
      intro t it _ ht
      unfold registeredStep
      simp only []
      split_ifs
      · exact ht
      · exact atMostOne_newTask t _ ht
      · exact ht
  | serviceUnregistered service =>
    refine foldl_invariant (fun t : SystemTray => AtMostOne t.applets) _ _ ?_ _ h
    intro t it _ ht
    by_cases h1 : it.1 ∈ t.m_allowedPlasmoids
    · cases h2 : it.2.exactMatch service
      · rw [unregisteredStep_skip service t it (Or.inr h2)]; exact ht
      · rw [unregisteredStep_hit service t it h1 h2]
        simp only []
        split_ifs
        · exact atMostOne_cleanupTask _ _ ht
        · exact atMostOne_cleanupTask _ _ ht
        · exact ht
        · exact ht
    · rw [unregisteredStep_skip service t it (Or.inl h1)]; exact ht
  | deferredDelete => exact atMostOne_filter _ _ h
  | appletDestroy id =>
    apply atMostOne_map _ _ h
    · intro a; split_ifs <;> rfl
    · intro a; split_ifs <;> rfl
    · intro a ha; split_ifs
      · rfl
      · exact ha

end SystemTray

/-- C1. Starting from a state with no applets, after every finite sequence of
`newTask`, `cleanupTask`, `setAllowedPlasmoids`, `serviceRegistered` and
`serviceUnregistered` calls (interleaved at will with completed deletions and
with `Applet::destroy()` from outside), every plugin id has at most one applet
in `applets()` that carries this plugin id and is not marked destroyed. -/
theorem C1_at_most_one_instance (s : SystemTray) (hempty : s.applets = [])
    (calls : List SystemTray.Call) (plugin : String) :
    ((s.run calls).applets.filter
      (fun applet => applet.pluginId == plugin && !applet.destroyed)).length ≤ 1 := by
  have h0 : AtMostOne s.applets := by
    rw [hempty]
    exact ⟨fun a ha => (by cases ha), fun _ => (by simp)⟩
  have h : AtMostOne (s.run calls).applets :=
    foldl_invariant (fun t => AtMostOne t.applets) SystemTray.step calls
      (fun t call _ ht => SystemTray.atMostOne_step t call ht) s h0
  rw [← List.countP_eq_length_filter]
  exact h.2 plugin

/-- C1 on the example tray, for a sequence that starts, stops and restarts the
player applet. -/
theorem C1_witness :
    (exampleTray true).applets = [] ∧
    (((exampleTray true).run [Call.setAllowedPlasmoids ["player", "clock"],
        Call.serviceRegistered "org.example.a", Call.serviceRegistered "org.example.b",
        Call.newTask "player", Call.serviceUnregistered "org.example.a",
        Call.serviceUnregistered "org.example.b", Call.newTask "player",
        Call.cleanupTask "clock", Call.setAllowedPlasmoids ["clock"]]).applets.filter
      (fun applet => applet.pluginId == "player" && !applet.destroyed)).length ≤ 1 :=
  ⟨rfl, C1_at_most_one_instance (exampleTray true) rfl _ "player"⟩

/-! ## C2: the activation count and the assertion of `serviceUnregistered` -/

/-- C2, evaluated at a failing input.  The service `org.example.a` is
registered while `player` is not allowed (so it is not counted), then `player`
is allowed, then the service is unregistered: the sequence is well paired, yet
the count of `player` ends at -1 and the assertion `count >= 0` of
`serviceUnregistered` fails. -/
theorem C2_count_negative_at_failing_input :
    wellPaired [] [Call.serviceRegistered "org.example.a",
        Call.setAllowedPlasmoids ["player"],
        Call.serviceUnregistered "org.example.a"] = true ∧
    (exampleTray false).count "player" = 0 ∧
    ((exampleTray false).run [Call.serviceRegistered "org.example.a"]).count "player" = 0 ∧
    ((exampleTray false).run [Call.serviceRegistered "org.example.a",
        Call.setAllowedPlasmoids ["player"],
        Call.serviceUnregistered "org.example.a"]).count "player" = -1 ∧
    Effect.assertFailed "player" ∈
      ((exampleTray false).run [Call.serviceRegistered "org.example.a",
        Call.setAllowedPlasmoids ["player"],
        Call.serviceUnregistered "org.example.a"]).log := by
  decide

/-! ## C3: two services, one instance -/

namespace SystemTray

theorem effectsFor_trans (plugin : String) {s t u : SystemTray} (h1 : LogExt s t)
    (h2 : LogExt t u) :
    effectsFor plugin s u = effectsFor plugin s t ++ effectsFor plugin t u := by
  obtain ⟨f1, h1⟩ := h1
  obtain ⟨f2, h2⟩ := h2
  have h3 : u.log = s.log ++ (f1 ++ f2) := by rw [h2, h1, List.append_assoc]
  rw [effectsFor_of_log plugin h1, effectsFor_of_log plugin h2, effectsFor_of_log plugin h3,
    List.filter_append]

end SystemTray

/-- C3, as stated, fails when one of the names begins with `:`.  With the
pattern `*`, `any` absent and its count 0: after `serviceRegistered` of
`org.example.a` and of `:1.7` (ignored by the guard of `serviceRegistered`) and
`serviceUnregistered` of `org.example.a`, the count of `any` is 0, not 1, and
`cleanupTask` has been invoked for it. -/
theorem C3_counterexample_colon_name :
    wildTray.m_dbusActivatableTasks.map Prod.fst = ["any"] ∧
    "any" ∈ wildTray.m_allowedPlasmoids ∧ "any" ∈ wildTray.installed ∧
    (QRegExp.wildcard "*").exactMatch "org.example.a" = true ∧
    (QRegExp.wildcard "*").exactMatch ":1.7" = true ∧
    "org.example.a" ≠ ":1.7" ∧
    wildTray.appletsOf "any" = [] ∧ wildTray.count "any" = 0 ∧
    (((wildTray.serviceRegistered "org.example.a").serviceRegistered ":1.7").serviceUnregistered
      "org.example.a").count "any" = 0 ∧
    Effect.cleanupTask "any" ∈ effectsSince wildTray
      (((wildTray.serviceRegistered "org.example.a").serviceRegistered ":1.7").serviceUnregistered
        "org.example.a") := by
  decide

/-- C3, amended.  For every allowed plugin with an activation pattern (one entry
per plugin in the hash `m_dbusActivatableTasks`) that is absent, has count 0
and can be instantiated, and for two names that match its pattern and do not
begin with `:`: after `serviceRegistered(a)`,
`serviceRegistered(b)`, `serviceUnregistered(a)` exactly one applet of the
plugin has been created, by the first registration; it is still in `applets()`
with no deletion requested (no `cleanupTask` for the plugin), and the count of
the plugin is 1. -/
theorem C3_two_services_one_instance (s : SystemTray) (plugin a b : String) (rx : QRegExp)
    (hkeys : (s.m_dbusActivatableTasks.map Prod.fst).Nodup)
    (hmem : (plugin, rx) ∈ s.m_dbusActivatableTasks)
    (hallowed : plugin ∈ s.m_allowedPlasmoids)
    (hma : rx.exactMatch a = true) (hmb : rx.exactMatch b = true)
    (hca : QString.startsWith a ':' = false) (hcb : QString.startsWith b ':' = false)
    (habsent : s.appletsOf plugin = []) (hcount : s.count plugin = 0)
    (hinst : plugin ∈ s.installed) :
    ∃ id,
      effectsFor plugin s (s.serviceRegistered a) =
        [Effect.newTask plugin, Effect.addApplet (loaded plugin id)] ∧
      effectsFor plugin s
          (((s.serviceRegistered a).serviceRegistered b).serviceUnregistered a) =
        [Effect.newTask plugin, Effect.addApplet (loaded plugin id), Effect.newTask plugin] ∧
      (((s.serviceRegistered a).serviceRegistered b).serviceUnregistered a).appletsOf plugin =
        [loaded plugin id] ∧
      (((s.serviceRegistered a).serviceRegistered b).serviceUnregistered a).count plugin = 1 := by
  obtain ⟨id, happ1, hcnt1, hfx1, -, -⟩ := serviceRegistered_absent s a plugin rx hkeys hmem
    hallowed hma hca habsent hinst
  have hs1 := serviceRegistered_static s a
  have hrun1 : (s.serviceRegistered a).applets.any (fun applet =>
      applet.valid && (plugin == applet.pluginId) && !applet.destroyed) = true := by
    rw [any_live_appletsOf, happ1]
    simp [loaded]
  have hkeys1 : ((s.serviceRegistered a).m_dbusActivatableTasks.map Prod.fst).Nodup := by
    rw [hs1.m_dbusActivatableTasks]; exact hkeys
  have hmem1 : (plugin, rx) ∈ (s.serviceRegistered a).m_dbusActivatableTasks := by
    rw [hs1.m_dbusActivatableTasks]; exact hmem
  have hall1 : plugin ∈ (s.serviceRegistered a).m_allowedPlasmoids := by
    rw [hs1.m_allowedPlasmoids]; exact hallowed
  obtain ⟨happ2, hcnt2, hfx2, -⟩ := serviceRegistered_running (s.serviceRegistered a) b plugin rx
    hkeys1 hmem1 hall1 hmb hcb hrun1
  have hs2 := serviceRegistered_static (s.serviceRegistered a) b
  have hkeys2 : (((s.serviceRegistered a).serviceRegistered b).m_dbusActivatableTasks.map
      Prod.fst).Nodup := by
    rw [hs2.m_dbusActivatableTasks]; exact hkeys1
  have hmem2 : (plugin, rx) ∈ ((s.serviceRegistered a).serviceRegistered b).m_dbusActivatableTasks := by
    rw [hs2.m_dbusActivatableTasks]; exact hmem1
  have hall2 : plugin ∈ ((s.serviceRegistered a).serviceRegistered b).m_allowedPlasmoids := by
    rw [hs2.m_allowedPlasmoids]; exact hall1
  obtain ⟨hcnt3, hfx3, happ3⟩ := serviceUnregistered_spec
    ((s.serviceRegistered a).serviceRegistered b) a plugin rx hkeys2 hmem2 hall2 hma
  have hc2 : ((s.serviceRegistered a).serviceRegistered b).count plugin = 2 := by
    rw [hcnt2, hcnt1, hcount]; rfl
  rw [hc2] at hcnt3 hfx3 happ3
  refine ⟨id, hfx1, ?_, ?_, ?_⟩
  · rw [effectsFor_trans plugin
      ((serviceRegistered_logExt s a).ltrans (serviceRegistered_logExt _ b))
      (serviceUnregistered_logExt _ a),
      effectsFor_trans plugin (serviceRegistered_logExt s a) (serviceRegistered_logExt _ b),
      hfx1, hfx2, hfx3]
    simp
  · rw [happ3 (by decide), happ2, happ1]
  · rw [hcnt3]; rfl

/-- C3 at the example of the specification: pattern `org.example.*`, names
`org.example.a` and `org.example.b`. -/
theorem C3_witness :
    ∃ id,
      effectsFor "player" ((exampleTray true).setAllowedPlasmoids ["player"])
          (((exampleTray true).setAllowedPlasmoids ["player"]).serviceRegistered
            "org.example.a") =
        [Effect.newTask "player", Effect.addApplet (loaded "player" id)] ∧
      effectsFor "player" ((exampleTray true).setAllowedPlasmoids ["player"])
          (((((exampleTray true).setAllowedPlasmoids ["player"]).serviceRegistered
            "org.example.a").serviceRegistered "org.example.b").serviceUnregistered
            "org.example.a") =
        [Effect.newTask "player", Effect.addApplet (loaded "player" id),
          Effect.newTask "player"] ∧
      (((((exampleTray true).setAllowedPlasmoids ["player"]).serviceRegistered
            "org.example.a").serviceRegistered "org.example.b").serviceUnregistered
            "org.example.a").appletsOf "player" = [loaded "player" id] ∧
      (((((exampleTray true).setAllowedPlasmoids ["player"]).serviceRegistered
            "org.example.a").serviceRegistered "org.example.b").serviceUnregistered
            "org.example.a").count "player" = 1 :=
  C3_two_services_one_instance ((exampleTray true).setAllowedPlasmoids ["player"]) "player"
    "org.example.a" "org.example.b" (QRegExp.wildcard "org.example.*")
    (by decide) (by simp [exampleTray, exampleCatalog, setAllowedPlasmoids, fresh, init, initOne,
      restorePlasmoids, record, removeNotAllowed, loadKnownPlugins, readKnownPlugins,
      sortedApplets, sortedAppletsStep, QHash.insert, QHash.contains, addSorted])
    (by decide) (by decide) (by decide) (by decide) (by decide) (by decide) (by decide)
    (by decide)

/-! ## C4: the stop on the last unregistration -/

/-- C4. For every state in which `plugin` is allowed and has an activation
pattern (one entry per plugin in the hash `m_dbusActivatableTasks`),
`serviceUnregistered` with a name that matches the pattern lowers the
count of `plugin` by one.  When the count was 1 (so becomes 0) the effects about
the plugin are exactly: one call of `cleanupTask(plugin)`, and for each applet of
the plugin that the loop of `cleanupTask` selects one `deleteLater()` request and
one `appletDeleted` emission; for a plugin with the one running applet `applet`
that is the list `cleanupTask`, `deleteLater applet`, `appletDeleted applet`.
When the count was 2 or more there is no effect about the plugin at all, in
particular no `cleanupTask`. -/
theorem C4_stop_on_last_unregistration (s : SystemTray) (service plugin : String)
    (rx : QRegExp)
    (hkeys : (s.m_dbusActivatableTasks.map Prod.fst).Nodup)
    (hmem : (plugin, rx) ∈ s.m_dbusActivatableTasks)
    (hallowed : plugin ∈ s.m_allowedPlasmoids) (hmatch : rx.exactMatch service = true) :
    (s.serviceUnregistered service).count plugin = s.count plugin - 1 ∧
    (s.count plugin = 1 →
      effectsFor plugin s (s.serviceUnregistered service) =
        Effect.cleanupTask plugin ::
          (s.applets.filter (isTask plugin)).flatMap (fun applet =>
            [Effect.deleteLater applet, Effect.appletDeleted applet])) ∧
    (s.count plugin = 1 → ∀ applet : Applet, s.appletsOf plugin = [applet] →
      applet.valid = true →
      effectsFor plugin s (s.serviceUnregistered service) =
        [Effect.cleanupTask plugin, Effect.deleteLater applet, Effect.appletDeleted applet]) ∧
    (2 ≤ s.count plugin → effectsFor plugin s (s.serviceUnregistered service) = []) := by
  obtain ⟨hcnt, hfx, -⟩ := serviceUnregistered_spec s service plugin rx hkeys hmem hallowed
    hmatch
  refine ⟨hcnt, ?_, ?_, ?_⟩
  · intro h1
    have h0 : s.count plugin - 1 = 0 := by omega
    rw [hfx, if_pos h0, filter_isTask_appletsOf]
  · intro h1 applet hrun hvalid
    have h0 : s.count plugin - 1 = 0 := by omega
    have hp : applet.pluginId = plugin := by
      have : applet ∈ s.appletsOf plugin := by rw [hrun]; exact List.mem_singleton.mpr rfl
      simpa using (List.mem_filter.mp this).2
    have ht : isTask plugin applet = true := by simp [isTask, hvalid, hp]
    rw [hfx, if_pos h0, hrun]
    simp [List.filter_cons, ht]
  · intro h2
    have h0 : ¬ s.count plugin - 1 = 0 := by omega
    have h3 : ¬ s.count plugin - 1 < 0 := by omega
    rw [hfx, if_neg h0, if_neg h3]

/-- C4 on the example tray: `player` runs with count 1 after one registration
and the unregistration stops it; with count 2 after two registrations nothing
happens to it. -/
theorem C4_witness :
    (((exampleTray false).setAllowedPlasmoids ["player"]).serviceRegistered
        "org.example.a").appletsOf "player" = [loaded "player" 1] ∧
    (((exampleTray false).setAllowedPlasmoids ["player"]).serviceRegistered
        "org.example.a").count "player" = 1 ∧
    ((((exampleTray false).setAllowedPlasmoids ["player"]).serviceRegistered
        "org.example.a").serviceUnregistered "org.example.a").count "player" = 1 - 1 ∧
    effectsFor "player"
        (((exampleTray false).setAllowedPlasmoids ["player"]).serviceRegistered "org.example.a")
        ((((exampleTray false).setAllowedPlasmoids ["player"]).serviceRegistered
          "org.example.a").serviceUnregistered "org.example.a") =
      [Effect.cleanupTask "player", Effect.deleteLater (loaded "player" 1),
        Effect.appletDeleted (loaded "player" 1)] ∧
    effectsFor "player"
        ((((exampleTray false).setAllowedPlasmoids ["player"]).serviceRegistered
          "org.example.a").serviceRegistered "org.example.b")
        (((((exampleTray false).setAllowedPlasmoids ["player"]).serviceRegistered
          "org.example.a").serviceRegistered "org.example.b").serviceUnregistered
          "org.example.a") = [] :=
  ⟨by decide, by decide,
   (C4_stop_on_last_unregistration
    (((exampleTray false).setAllowedPlasmoids ["player"]).serviceRegistered "org.example.a")
    "org.example.a" "player" (QRegExp.wildcard "org.example.*")
    (by decide) (List.mem_singleton.mpr rfl) (by decide) (by decide)).1,
   (C4_stop_on_last_unregistration
    (((exampleTray false).setAllowedPlasmoids ["player"]).serviceRegistered "org.example.a")
    "org.example.a" "player" (QRegExp.wildcard "org.example.*")
    (by decide) (List.mem_singleton.mpr rfl) (by decide) (by decide)).2.2.1 (by decide)
    (loaded "player" 1) (by decide) rfl,
   (C4_stop_on_last_unregistration
    ((((exampleTray false).setAllowedPlasmoids ["player"]).serviceRegistered
      "org.example.a").serviceRegistered "org.example.b")
    "org.example.a" "player" (QRegExp.wildcard "org.example.*")
    (by decide) (List.mem_singleton.mpr rfl) (by decide) (by decide)).2.2.2 (by decide)⟩

/-! ## C5: the id is recycled across stop and start -/

namespace SystemTray

theorem cleanupTask_then_delete_no_task (s : SystemTray) (task : String) :
    (s.cleanupTask task).deferredDelete.applets.any (fun applet =>
      applet.valid && (task == applet.pluginId) && !applet.destroyed) = false := by
  rw [List.any_eq_false]
  intro a ha hc
  have hta : isTask task a = true := by
    simp only [Bool.and_eq_true] at hc
    simp only [isTask, Bool.and_eq_true]
    exact hc.1
  simp only [deferredDelete, cleanupTask, record, List.mem_filter] at ha
  obtain ⟨ha, hdel⟩ := ha
  split_ifs at ha
  · have := (List.mem_filter.mp ha).2
    rw [hta] at this
    cases this
  · obtain ⟨b, -, hb⟩ := List.mem_map.mp ha
    split_ifs at hb with htb
    · rw [← hb] at hdel
      cases hdel
    · rw [hb] at htb
      exact htb hta

end SystemTray

/-- C5. For every plugin that can be instantiated and has no live applet:
`newTask` creates one applet for it; after `cleanupTask` and the completion of
the deletion, a second `newTask` again creates one applet, and it has the same
id as the first.  `cleanupTask` never changes the table of known plugins. -/
theorem C5_identity_recycled (s : SystemTray) (plugin : String)
    (hno : s.applets.any (fun applet =>
      applet.valid && (plugin == applet.pluginId) && !applet.destroyed) = false)
    (hinst : plugin ∈ s.installed) :
    (∃ id,
      createdSince s (s.newTask plugin) = [loaded plugin id] ∧
      createdSince ((s.newTask plugin).cleanupTask plugin).deferredDelete
          (((s.newTask plugin).cleanupTask plugin).deferredDelete.newTask plugin) =
        [loaded plugin id]) ∧
    ∀ (t : SystemTray) (task : String), (t.cleanupTask task).m_knownPlugins = t.m_knownPlugins := by
  refine ⟨?_, fun _ _ => rfl⟩
  obtain ⟨id, -, hlog1, hknown1, -, -⟩ := newTask_creates s plugin hno hinst
  have hno3 := cleanupTask_then_delete_no_task (s.newTask plugin) plugin
  have hinst3 : plugin ∈ ((s.newTask plugin).cleanupTask plugin).deferredDelete.installed := by
    show plugin ∈ (s.newTask plugin).installed
    rw [(newTask_static s plugin).installed]
    exact hinst
  obtain ⟨id2, -, hlog2, -, hk2, -⟩ := newTask_creates _ plugin hno3 hinst3
  have hid : id2 = id := hk2 id hknown1
  subst hid
  refine ⟨id2, ?_, ?_⟩
  · simp [createdSince, effectsSince_of_log hlog1]
  · simp [createdSince, effectsSince_of_log hlog2]

/-- C5 on the example tray, for the clock applet: both instances have id 1. -/
theorem C5_witness :
    (exampleTray false).applets = [] ∧ "clock" ∈ (exampleTray false).installed ∧
    (∃ id,
      createdSince (exampleTray false) ((exampleTray false).newTask "clock") =
        [loaded "clock" id] ∧
      createdSince (((exampleTray false).newTask "clock").cleanupTask "clock").deferredDelete
          ((((exampleTray false).newTask "clock").cleanupTask "clock").deferredDelete.newTask
            "clock") =
        [loaded "clock" id]) ∧
    (((exampleTray false).newTask "clock").cleanupTask "clock").m_knownPlugins =
      ((exampleTray false).newTask "clock").m_knownPlugins :=
  ⟨rfl, by decide,
   (C5_identity_recycled (exampleTray false) "clock" (by decide) (by decide)).1,
   (C5_identity_recycled (exampleTray false) "clock" (by decide) (by decide)).2 _ _⟩

/-! ## C6: removal from the allow list and the id -/

namespace SystemTray

theorem newTask_self_keepsId (plugin : String) (id : Nat) (t : SystemTray)
    (h : KeepsId plugin id t) :
    KeepsId plugin id (t.newTask plugin) ∧ (t.newTask plugin).appletsOf plugin =
      [loaded plugin id] := by
  obtain ⟨hk, hi, ha⟩ := h
  have hinst : plugin ∈ (t.newTask plugin).installed := by
    rw [(newTask_static t plugin).installed]; exact hi
  rcases ha with ha | ha
  · obtain ⟨id2, happ, -, hknown, hk2, -⟩ := newTask_creates t plugin
      (no_live_of_absent t plugin ha) hi
    have hid : id2 = id := hk2 id hk
    subst hid
    have happ2 : (t.newTask plugin).appletsOf plugin = [loaded plugin id2] := by
      unfold appletsOf at ha ⊢
      rw [happ, List.filter_append, ha]
      simp [loaded]
    exact ⟨⟨hknown, hinst, Or.inr happ2⟩, happ2⟩
  · have hrun : t.applets.any (fun applet =>
        applet.valid && (plugin == applet.pluginId) && !applet.destroyed) = true := by
      rw [any_live_appletsOf, ha]
      simp [loaded]
    rw [newTask_running t plugin hrun]
    exact ⟨⟨hk, hi, Or.inr ha⟩, ha⟩

theorem newTask_keepsId (plugin : String) (id : Nat) (t : SystemTray) (task : String)
    (h : KeepsId plugin id t) : KeepsId plugin id (t.newTask task) := by
  by_cases hp : task = plugin
  · subst hp
    exact (newTask_self_keepsId task id t h).1
  · have hf := newTask_frame t task plugin hp
    obtain ⟨hk, hi, ha⟩ := h
    refine ⟨by rw [hf.known]; exact hk, by rw [(newTask_static t task).installed]; exact hi, ?_⟩
    rw [hf.applets]
    exact ha

theorem newTask_leaving (plugin : String) (id : Nat) (t : SystemTray) (task : String)
    (htask : task ∈ t.m_allowedPlasmoids) (h : Leaving plugin id t) :
    Leaving plugin id (t.newTask task) := by
  obtain ⟨hk, ha, hn⟩ := h
  have hp : task ≠ plugin := fun h => hn (h ▸ htask)
  have hf := newTask_frame t task plugin hp
  refine ⟨by rw [hf.known]; exact hk, by rw [hf.applets]; exact ha, ?_⟩
  rw [(newTask_static t task).m_allowedPlasmoids]
  exact hn

theorem restorePlasmoids_config (s : SystemTray) (hcont : s.isContainment = true) :
    s.restorePlasmoids.config = (s.record Effect.restorePlasmoids).removeNotAllowed.config := by
  rw [restorePlasmoids_eq s hcont]
  show (List.foldl addSorted _ _).config = _
  exact restorePlasmoids_fold_invariant
    (fun t : SystemTray =>
      t.config = (s.record Effect.restorePlasmoids).removeNotAllowed.config) _ _
    (fun t task _ ht => (newTask_config t task).trans ht) rfl

end SystemTray

/-- C6, as stated, fails.  The clock applet is started with id 1, removed from
the allow list (its deletion completes), and allowed again: the applet that
reconciliation then creates has id 1 again, not a new id.  The same with a
clock that was configured as group 5: the removal deletes group 5, and the
applet created after the clock is allowed again has id 5. -/
theorem C6_counterexample_same_id :
    ((exampleTray false).setAllowedPlasmoids ["clock"]).appletsOf "clock" = [loaded "clock" 1] ∧
    ((((exampleTray false).setAllowedPlasmoids ["clock"]).setAllowedPlasmoids
      []).deferredDelete).applets = [] ∧
    createdSince
      ((((exampleTray false).setAllowedPlasmoids ["clock"]).setAllowedPlasmoids
        []).deferredDelete)
      (((((exampleTray false).setAllowedPlasmoids ["clock"]).setAllowedPlasmoids
        []).deferredDelete).setAllowedPlasmoids ["clock"]) = [loaded "clock" 1] ∧
    (configuredTray.setAllowedPlasmoids ["clock"]).appletsOf "clock" = [loaded "clock" 5] ∧
    (configuredTray.setAllowedPlasmoids ["clock"]).config = [(5, "clock")] ∧
    ((configuredTray.setAllowedPlasmoids ["clock"]).setAllowedPlasmoids []).config = [] ∧
    (((configuredTray.setAllowedPlasmoids ["clock"]).setAllowedPlasmoids
      []).deferredDelete).applets = [] ∧
    createdSince
      (((configuredTray.setAllowedPlasmoids ["clock"]).setAllowedPlasmoids []).deferredDelete)
      ((((configuredTray.setAllowedPlasmoids ["clock"]).setAllowedPlasmoids
        []).deferredDelete).setAllowedPlasmoids ["clock"]) = [loaded "clock" 5] := by
  decide

/-- C6, amended.  Let `plugin` be allowed, with known id `id`, instantiable, and
let no configuration group other than group `id` name it.  After it is removed
from the allow list by `setAllowedPlasmoids` (which deletes the configuration
groups of its applets), the deletions complete, it is allowed again and started
again, the plugin has exactly one applet and that applet has the same id `id`:
the entry in the table of known plugins is kept. -/
theorem C6_identity_kept_after_removal (s : SystemTray) (plugin : String) (id : Nat)
    (removed readded : List String)
    (hcont : s.isContainment = true)
    (hknown : List.lookup plugin s.m_knownPlugins = some id)
    (hconfig : ∀ g ∈ s.config, g.2 = plugin → g.1 = id)
    (hinst : plugin ∈ s.installed)
    (hallowed : plugin ∈ s.m_allowedPlasmoids)
    (hout : plugin ∉ removed) (hin : plugin ∈ readded) :
    ((((s.setAllowedPlasmoids removed).deferredDelete).setAllowedPlasmoids readded).newTask
        plugin).appletsOf plugin = [loaded plugin id] ∧
    (∀ a ∈ s.appletsOf plugin, ∀ g ∈ (s.setAllowedPlasmoids removed).config, g.1 ≠ a.id) := by
  have hne1 : ¬ removed = s.m_allowedPlasmoids := fun h => hout (h ▸ hallowed)
  -- the first reconciliation
  have hs1 : s.setAllowedPlasmoids removed =
      (restorePlasmoids { s with m_allowedPlasmoids := removed }).record
        Effect.allowedPlasmoidsChanged :=
    setAllowedPlasmoids_of_ne s removed hne1
  have hst1 := restorePlasmoids_static { s with m_allowedPlasmoids := removed }
  have hcu : SystemTray.isContainment { s with m_allowedPlasmoids := removed } = true := hcont
  have hcfg1 : (s.setAllowedPlasmoids removed).config =
      s.config.filter (fun group =>
        !(s.applets.filter (notAllowedAnymore removed)).any (fun applet =>
          applet.id == group.1)) := by
    rw [hs1]
    show (restorePlasmoids _).config = _
    rw [restorePlasmoids_config _ hcu]
    rfl
  have hsub1 : ∀ g ∈ (s.setAllowedPlasmoids removed).config, g ∈ s.config := by
    intro g hg
    rw [hcfg1] at hg
    exact (List.mem_filter.mp hg).1
  have hleave : Leaving plugin id (s.setAllowedPlasmoids removed) := by
    rw [hs1, restorePlasmoids_eq _ hcu]
    show Leaving plugin id (List.foldl addSorted _ _)
    apply restorePlasmoids_fold_invariant (Leaving plugin id) _ _
      (fun t task htask ht => newTask_leaving plugin id t task htask ht)
    refine ⟨?_, ?_, hout⟩
    · apply readKnownPlugins_lookup _ _ _ _ _ hknown
      intro g hg
      exact hconfig g (List.mem_filter.mp hg).1
    · intro a ha
      have ha2 : a ∈ (SystemTray.record { s with m_allowedPlasmoids := removed }
          Effect.restorePlasmoids).removeNotAllowed.appletsOf plugin := ha
      rw [removeNotAllowed_appletsOf] at ha2
      obtain ⟨b, hb, hba⟩ := List.mem_map.mp ha2
      have hbp : b.pluginId = plugin := by
        simpa using (List.mem_filter.mp hb).2
      have hgone : notAllowedAnymore removed b = true := by
        unfold notAllowedAnymore
        cases hv : b.valid
        · simp
        · simp [hbp, hout]
      have hgone2 : notAllowedAnymore
          (SystemTray.record { s with m_allowedPlasmoids := removed }
            Effect.restorePlasmoids).m_allowedPlasmoids b = true := hgone
      rw [if_pos hgone2] at hba
      rw [← hba]
  -- the deletions complete
  have hempty : ((s.setAllowedPlasmoids removed).deferredDelete).appletsOf plugin = [] := by
    simp only [appletsOf, deferredDelete]
    rw [List.filter_filter, List.filter_eq_nil_iff]
    intro a ha hc
    simp only [Bool.and_eq_true, Bool.not_eq_true', beq_iff_eq] at hc
    have := hleave.2.1 a (by simp [appletsOf, List.mem_filter, ha, hc.1])
    rw [this] at hc
    cases hc.2
  have hall2 : (s.setAllowedPlasmoids removed).m_allowedPlasmoids = removed := by
    rw [hs1]
    exact hst1.m_allowedPlasmoids
  have hne2 : ¬ readded = (s.setAllowedPlasmoids removed).deferredDelete.m_allowedPlasmoids := by
    intro h
    have h2 : (s.setAllowedPlasmoids removed).deferredDelete.m_allowedPlasmoids = removed := hall2
    rw [h2] at h
    exact hout (h ▸ hin)
  have hcont2 : (s.setAllowedPlasmoids removed).deferredDelete.isContainment = true := by
    show (s.setAllowedPlasmoids removed).isContainment = true
    rw [hs1]
    exact hst1.isContainment.trans hcont
  have hinst2 : plugin ∈ (s.setAllowedPlasmoids removed).deferredDelete.installed := by
    show plugin ∈ (s.setAllowedPlasmoids removed).installed
    rw [hs1]
    show plugin ∈ (restorePlasmoids _).installed
    rw [hst1.installed]
    exact hinst
  -- the second reconciliation
  have hkeep : KeepsId plugin id
      (((s.setAllowedPlasmoids removed).deferredDelete).setAllowedPlasmoids readded) := by
    have hs3 : ((s.setAllowedPlasmoids removed).deferredDelete).setAllowedPlasmoids readded =
        (restorePlasmoids { (s.setAllowedPlasmoids removed).deferredDelete with
          m_allowedPlasmoids := readded }).record Effect.allowedPlasmoidsChanged :=
      setAllowedPlasmoids_of_ne _ readded hne2
    have hcu2 : SystemTray.isContainment { (s.setAllowedPlasmoids removed).deferredDelete with
        m_allowedPlasmoids := readded } = true := hcont2
    rw [hs3, restorePlasmoids_eq _ hcu2]
    show KeepsId plugin id (List.foldl addSorted _ _)
    apply restorePlasmoids_fold_invariant (KeepsId plugin id) _ _
      (fun t task _ ht => newTask_keepsId plugin id t task ht)
    refine ⟨?_, hinst2, Or.inl ?_⟩
    · apply readKnownPlugins_lookup _ _ _ _ _ hleave.1
      intro g hg
      exact hconfig g (hsub1 g (List.mem_filter.mp hg).1)
    · have h3 : ∀ t : SystemTray, t.appletsOf plugin = [] →
          (t.record Effect.restorePlasmoids).removeNotAllowed.loadKnownPlugins.appletsOf plugin
            = [] := by
        intro t ht
        show (t.record Effect.restorePlasmoids).removeNotAllowed.appletsOf plugin = []
        rw [removeNotAllowed_appletsOf]
        show List.map _ (t.appletsOf plugin) = []
        rw [ht]
        rfl
      exact h3 _ hempty
  refine ⟨(newTask_self_keepsId plugin id _ hkeep).2, ?_⟩
  intro a ha g hg heq
  rw [hcfg1] at hg
  have hg2 := (List.mem_filter.mp hg).2
  have hap := List.mem_filter.mp ha
  have hbp : a.pluginId = plugin := by simpa using hap.2
  have hgone : notAllowedAnymore removed a = true := by
    unfold notAllowedAnymore
    cases hv : a.valid
    · simp
    · simp [hbp, hout]
  have : (s.applets.filter (notAllowedAnymore removed)).any (fun applet =>
      applet.id == g.1) = true := by
    rw [List.any_eq_true]
    exact ⟨a, List.mem_filter.mpr ⟨hap.1, hgone⟩, by simp [heq]⟩
  rw [this] at hg2
  cases hg2

/-- C6, amended, on the example tray: the clock keeps id 1. -/
theorem C6_witness :
    (((((exampleTray false).setAllowedPlasmoids ["clock"]).setAllowedPlasmoids
        []).deferredDelete.setAllowedPlasmoids ["clock"]).newTask "clock").appletsOf "clock" =
      [loaded "clock" 1] ∧
    (∀ a ∈ ((exampleTray false).setAllowedPlasmoids ["clock"]).appletsOf "clock",
      ∀ g ∈ (((exampleTray false).setAllowedPlasmoids ["clock"]).setAllowedPlasmoids []).config,
        g.1 ≠ a.id) :=
  C6_identity_kept_after_removal ((exampleTray false).setAllowedPlasmoids ["clock"]) "clock" 1
    [] ["clock"] (by decide) (by decide) (by decide) (by decide) (by decide) (by decide)
    (by decide)

/-! ## C7: descriptors with the same display name -/

namespace SystemTray

theorem mem_effectsSince_right {s t u : SystemTray} {e : Effect} (h1 : LogExt s t)
    (h2 : LogExt t u) (he : e ∈ effectsSince s t) : e ∈ effectsSince s u := by
  obtain ⟨f1, h1⟩ := h1
  obtain ⟨f2, h2⟩ := h2
  have h3 : u.log = s.log ++ (f1 ++ f2) := by rw [h2, h1, List.append_assoc]
  rw [effectsSince_of_log h1] at he
  rw [effectsSince_of_log h3]
  exact List.mem_append_left _ he

theorem mem_effectsSince_left {s t u : SystemTray} {e : Effect} (h1 : LogExt s t)
    (h2 : LogExt t u) (he : e ∈ effectsSince t u) : e ∈ effectsSince s u := by
  obtain ⟨f1, h1⟩ := h1
  obtain ⟨f2, h2⟩ := h2
  have h3 : u.log = s.log ++ (f1 ++ f2) := by rw [h2, h1, List.append_assoc]
  rw [effectsSince_of_log h2] at he
  rw [effectsSince_of_log h3]
  exact List.mem_append_right _ he

theorem QMap.mem_insertMulti_self {V : Type} (m : QMap V) (key : String) (v : V) :
    (key, v) ∈ QMap.insertMulti m key v := by
  induction m with
  | nil => simp [QMap.insertMulti]
  | cons hd tl ih =>
    obtain ⟨k, w⟩ := hd
    simp only [QMap.insertMulti]
    split_ifs
    · exact List.mem_cons_of_mem _ ih
    · exact List.mem_cons_self _ _

theorem QMap.mem_insertMulti_of_mem {V : Type} (m : QMap V) (key : String) (v : V)
    (e : String × V) (he : e ∈ m) : e ∈ QMap.insertMulti m key v := by
  induction m with
  | nil => cases he
  | cons hd tl ih =>
    obtain ⟨k, w⟩ := hd
    simp only [QMap.insertMulti]
    split_ifs
    · rcases List.mem_cons.mp he with h | h
      · rw [h]; exact List.mem_cons_self _ _
      · exact List.mem_cons_of_mem _ (ih h)
    · exact List.mem_cons_of_mem _ he

theorem QMap.mem_insertMulti {V : Type} (m : QMap V) (key : String) (v : V)
    (e : String × V) (he : e ∈ QMap.insertMulti m key v) : e = (key, v) ∨ e ∈ m := by
  induction m with
  | nil => simpa [QMap.insertMulti] using he
  | cons hd tl ih =>
    obtain ⟨k, w⟩ := hd
    simp only [QMap.insertMulti] at he
    split_ifs at he
    · rcases List.mem_cons.mp he with h | h
      · exact Or.inr (h ▸ List.mem_cons_self _ _)
      · rcases ih h with h2 | h2
        · exact Or.inl h2
        · exact Or.inr (List.mem_cons_of_mem _ h2)
    · rcases List.mem_cons.mp he with h | h
      · exact Or.inl h
      · exact Or.inr h

theorem sortedAppletsStep_mono (s : SystemTray) (m : QMap KPluginMetaData)
    (it e : String × KPluginMetaData) (he : e ∈ m) : e ∈ sortedAppletsStep s m it := by
  unfold sortedAppletsStep
  simp only []
  split_ifs
  · exact he
  · exact QMap.mem_insertMulti_of_mem _ _ _ _ he
  · exact he

/-- Every catalogue entry that is allowed and has no activation pattern ends up
in `sortedApplets`, provided the plugin ids of the catalogue are distinct. -/
theorem sortedApplets_fold_mem (s : SystemTray) (l : List (String × KPluginMetaData))
    (acc : QMap KPluginMetaData)
    (hids : (l.map (fun it => it.2.pluginId)).Nodup)
    (hacc : ∀ e ∈ acc, ∀ it ∈ l, e.2.pluginId ≠ it.2.pluginId)
    (it : String × KPluginMetaData) (hit : it ∈ l)
    (hallowed : it.2.pluginId ∈ s.m_allowedPlasmoids)
    (hnopattern : QHash.contains s.m_dbusActivatableTasks it.2.pluginId = false) :
    (it.2.name, it.2) ∈ l.foldl (sortedAppletsStep s) acc := by
  induction l generalizing acc with
  | nil => cases hit
  | cons x tl ih =>
    rw [List.map_cons, List.nodup_cons] at hids
    rw [List.foldl_cons]
    have hacc2 : ∀ e ∈ sortedAppletsStep s acc x, ∀ y ∈ tl, e.2.pluginId ≠ y.2.pluginId := by
      intro e he y hy
      unfold sortedAppletsStep at he
      simp only [] at he
      have hx : x.2.pluginId ≠ y.2.pluginId := by
        intro h
        exact hids.1 (h ▸ List.mem_map_of_mem (fun it => it.2.pluginId) hy)
      have hold : e ∈ acc → e.2.pluginId ≠ y.2.pluginId :=
        fun h => hacc e h y (List.mem_cons_of_mem _ hy)
      split_ifs at he
      · exact hold he
      · have hcases := QMap.mem_insertMulti _ _ _ _ he
        rcases hcases with h | h
        · rw [h]; exact hx
        · exact hold h
      · exact hold he
    rcases List.mem_cons.mp hit with h | h
    · subst h
      have hstep : (it.2.name, it.2) ∈ sortedAppletsStep s acc it := by
        unfold sortedAppletsStep
        simp only []
        have hnodupe : (QMap.values acc it.2.name).any (fun existingInfo =>
            existingInfo.pluginId == it.2.pluginId) = false := by
          rw [List.any_eq_false]
          intro v hv
          obtain ⟨e, he, hev⟩ := List.mem_map.mp hv
          have := hacc e (List.mem_filter.mp he).1 it (List.mem_cons_self _ _)
          rw [← hev]
          simpa using this
        have hc : (s.m_allowedPlasmoids.contains it.2.pluginId &&
            !QHash.contains s.m_dbusActivatableTasks it.2.pluginId) = true := by
          simp [hallowed, hnopattern]
        rw [if_pos hc, hnodupe, Bool.and_false]
        simp only [Bool.false_eq_true, if_false]
        exact QMap.mem_insertMulti_self _ _ _
      exact foldl_invariant (fun m => (it.2.name, it.2) ∈ m) (sortedAppletsStep s) tl
        (fun m y _ hm => sortedAppletsStep_mono s m y _ hm) _ hstep
    · exact ih _ hids.2 hacc2 h

/-- The last loop of `restorePlasmoids` calls `newTask` for every allowed entry
of the list it goes through. -/
theorem addSorted_fold_calls (l : List (String × KPluginMetaData)) (s : SystemTray)
    (it : String × KPluginMetaData) (hit : it ∈ l)
    (hallowed : it.2.pluginId ∈ s.m_allowedPlasmoids) :
    Effect.newTask it.2.pluginId ∈ effectsSince s (l.foldl addSorted s) := by
  induction l generalizing s with
  | nil => cases hit
  | cons x tl ih =>
    rw [List.foldl_cons]
    have hrest : LogExt (addSorted s x) (tl.foldl addSorted (addSorted s x)) :=
      foldl_rel LogExt LogExt.lrefl (fun _ _ _ => LogExt.ltrans) addSorted tl
        (fun t y _ => addSorted_logExt t y) _
    rcases List.mem_cons.mp hit with h | h
    · subst h
      apply mem_effectsSince_right (addSorted_logExt s it) hrest
      unfold addSorted
      have hc : s.m_allowedPlasmoids.contains it.2.pluginId = true := by simpa using hallowed
      rw [if_pos hc]
      obtain ⟨fx, added, known, m, heq, -⟩ := newTask_shape s it.2.pluginId
      have hlog : (s.newTask it.2.pluginId).log = s.log ++ Effect.newTask it.2.pluginId :: fx := by
        rw [heq]
      rw [effectsSince_of_log hlog]
      exact List.mem_cons_self _ _
    · apply mem_effectsSince_left (addSorted_logExt s x) hrest
      apply ih _ h
      rw [(addSorted_static s x).m_allowedPlasmoids]
      exact hallowed

/-- The pass `restorePlasmoids` calls `newTask` for every catalogue entry that is allowed
and has no activation pattern, when the plugin ids of the catalogue are
distinct. -/
theorem restorePlasmoids_calls_newTask (s : SystemTray) (hcont : s.isContainment = true)
    (hids : (s.m_systrayApplets.map (fun it => it.2.pluginId)).Nodup)
    (it : String × KPluginMetaData) (hit : it ∈ s.m_systrayApplets)
    (hallowed : it.2.pluginId ∈ s.m_allowedPlasmoids)
    (hnopattern : QHash.contains s.m_dbusActivatableTasks it.2.pluginId = false) :
    Effect.newTask it.2.pluginId ∈ effectsSince s s.restorePlasmoids := by
  rw [restorePlasmoids_eq s hcont]
  have hmem : (it.2.name, it.2) ∈
      sortedApplets (s.record Effect.restorePlasmoids).removeNotAllowed.loadKnownPlugins :=
    sortedApplets_fold_mem _ s.m_systrayApplets [] hids (fun e he => by cases he) it hit
      hallowed hnopattern
  have h1 : LogExt s (s.record Effect.restorePlasmoids).removeNotAllowed.loadKnownPlugins :=
    (record_logExt s _).ltrans ((removeNotAllowed_logExt _).ltrans (LogExt.lrefl _))
  have h2 := foldl_rel LogExt LogExt.lrefl (fun _ _ _ => LogExt.ltrans) addSorted
    (sortedApplets (s.record Effect.restorePlasmoids).removeNotAllowed.loadKnownPlugins)
    (fun t y _ => addSorted_logExt t y)
    (s.record Effect.restorePlasmoids).removeNotAllowed.loadKnownPlugins
  apply mem_effectsSince_right (h1.ltrans h2) (record_logExt _ _)
  apply mem_effectsSince_left h1 h2
  exact addSorted_fold_calls _ _ (it.2.name, it.2) hmem hallowed

/-- After `init()` on a tray without catalogue, the catalogue has one entry per
plugin id, stored under that id. -/
theorem init_catalog (s : SystemTray) (infos : List KPluginMetaData)
    (hempty : s.m_systrayApplets = []) :
    ((s.init infos).m_systrayApplets.map Prod.fst).Nodup ∧
    ∀ it ∈ (s.init infos).m_systrayApplets, it.2.pluginId = it.1 := by
  unfold init
  refine foldl_invariant (fun t : SystemTray => (t.m_systrayApplets.map Prod.fst).Nodup ∧
    ∀ it ∈ t.m_systrayApplets, it.2.pluginId = it.1) initOne infos ?_ s ?_
  · intro t info _ ht
    have hkey : ∀ u : SystemTray,
        u.m_systrayApplets = QHash.insert t.m_systrayApplets info.pluginId info →
        (u.m_systrayApplets.map Prod.fst).Nodup ∧
          ∀ it ∈ u.m_systrayApplets, it.2.pluginId = it.1 := by
      intro u hu
      rw [hu]
      refine ⟨QHash.keys_nodup_insert _ _ _ ht.1, ?_⟩
      intro it hit
      rcases QHash.mem_insert _ _ _ _ hit with h | h
      · rw [h]
      · exact ht.2 it h
    unfold initOne
    simp only []
    split_ifs
    · exact ht
    · exact hkey _ rfl
    · exact hkey _ rfl
    · exact hkey _ rfl
    · exact hkey _ rfl
  · show (s.m_systrayApplets.map Prod.fst).Nodup ∧
      ∀ it ∈ s.m_systrayApplets, it.2.pluginId = it.1
    rw [hempty]
    exact ⟨List.nodup_nil, fun it hit => (by cases hit)⟩

/-- After `init()` on a tray without catalogue, the plugin ids of the catalogue
are distinct. -/
theorem init_catalog_ids (s : SystemTray) (infos : List KPluginMetaData)
    (hempty : s.m_systrayApplets = []) :
    ((s.init infos).m_systrayApplets.map (fun it => it.2.pluginId)).Nodup := by
  obtain ⟨h1, h2⟩ := init_catalog s infos hempty
  have : (s.init infos).m_systrayApplets.map (fun it => it.2.pluginId) =
      (s.init infos).m_systrayApplets.map Prod.fst :=
    List.map_congr_left (fun it hit => h2 it hit)
  rw [this]
  exact h1

end SystemTray

/-- C7, as stated, fails.  `a.clock` and `b.clock` have the same display name
`Clock`, both are allowed and neither has an activation pattern: the
reconciliation calls `newTask` for both and both get an applet. -/
theorem C7_counterexample_both_started :
    twinTray.m_systrayApplets.map (fun it => (it.2.pluginId, it.2.name)) =
      [("a.clock", "Clock"), ("b.clock", "Clock")] ∧
    twinTray.m_dbusActivatableTasks.map Prod.fst = [] ∧
    effectsSince { twinTray with m_allowedPlasmoids := ["a.clock", "b.clock"] }
        (restorePlasmoids { twinTray with m_allowedPlasmoids := ["a.clock", "b.clock"] }) =
      [Effect.restorePlasmoids,
       Effect.newTask "b.clock", Effect.addApplet (loaded "b.clock" 1),
       Effect.newTask "a.clock", Effect.addApplet (loaded "a.clock" 2),
       Effect.initDBusActivatables] := by
  decide

/-- C7, amended.  For every catalogue (with one entry per plugin id) that
contains two descriptors with different plugin ids and the same display name,
both allowed and neither with an activation pattern, `restorePlasmoids` calls
`newTask` for both of them. -/
theorem C7_same_name_both_started (s : SystemTray) (d1 d2 : String × KPluginMetaData)
    (hcont : s.isContainment = true)
    (hids : (s.m_systrayApplets.map (fun it => it.2.pluginId)).Nodup)
    (h1 : d1 ∈ s.m_systrayApplets) (h2 : d2 ∈ s.m_systrayApplets)
    (_hdiff : d1.2.pluginId ≠ d2.2.pluginId) (_hname : d1.2.name = d2.2.name)
    (hallowed1 : d1.2.pluginId ∈ s.m_allowedPlasmoids)
    (hallowed2 : d2.2.pluginId ∈ s.m_allowedPlasmoids)
    (hnopattern1 : QHash.contains s.m_dbusActivatableTasks d1.2.pluginId = false)
    (hnopattern2 : QHash.contains s.m_dbusActivatableTasks d2.2.pluginId = false) :
    Effect.newTask d1.2.pluginId ∈ effectsSince s s.restorePlasmoids ∧
    Effect.newTask d2.2.pluginId ∈ effectsSince s s.restorePlasmoids :=
  ⟨restorePlasmoids_calls_newTask s hcont hids d1 h1 hallowed1 hnopattern1,
   restorePlasmoids_calls_newTask s hcont hids d2 h2 hallowed2 hnopattern2⟩

/-- C7, amended, on the tray with the two clocks. -/
theorem C7_witness :
    Effect.newTask "a.clock" ∈
      effectsSince { twinTray with m_allowedPlasmoids := ["a.clock", "b.clock"] }
        (restorePlasmoids { twinTray with m_allowedPlasmoids := ["a.clock", "b.clock"] }) ∧
    Effect.newTask "b.clock" ∈
      effectsSince { twinTray with m_allowedPlasmoids := ["a.clock", "b.clock"] }
        (restorePlasmoids { twinTray with m_allowedPlasmoids := ["a.clock", "b.clock"] }) :=
  C7_same_name_both_started { twinTray with m_allowedPlasmoids := ["a.clock", "b.clock"] }
    ("a.clock", ⟨"a.clock", "Clock", true, "true", true, ""⟩)
    ("b.clock", ⟨"b.clock", "Clock", true, "true", true, ""⟩)
    (by decide) (by decide) (by decide) (by decide) (by decide) (by decide) (by decide)
    (by decide) (by decide) (by decide)

/-! ## C8: service names that begin with `:` -/

namespace SystemTray

/-- The method `serviceRegistered` returns at once for a name that begins with `:`. -/
theorem serviceRegistered_colon (s : SystemTray) (service : String)
    (h : QString.startsWith service ':' = true) : s.serviceRegistered service = s := by
  unfold serviceRegistered
  rw [if_pos h]

end SystemTray

/-- C8, evaluated at a failing input.  The applet `any` (pattern `*`) runs with
count 1 because `org.example.a` is registered.  `serviceRegistered(":1.42")`
changes nothing, but `serviceUnregistered(":1.42")` has no guard for the
leading `:`: the name matches, the count of `any` drops to 0 and its applet is
stopped. -/
theorem C8_unregistered_colon_name_at_failing_input :
    QString.startsWith ":1.42" ':' = true ∧
    (wildTray.serviceRegistered "org.example.a").appletsOf "any" = [loaded "any" 1] ∧
    (wildTray.serviceRegistered "org.example.a").count "any" = 1 ∧
    effectsSince (wildTray.serviceRegistered "org.example.a")
      ((wildTray.serviceRegistered "org.example.a").serviceRegistered ":1.42") = [] ∧
    ((wildTray.serviceRegistered "org.example.a").serviceRegistered ":1.42").count "any" = 1 ∧
    ((wildTray.serviceRegistered "org.example.a").serviceUnregistered ":1.42").count "any" = 0 ∧
    effectsSince (wildTray.serviceRegistered "org.example.a")
        ((wildTray.serviceRegistered "org.example.a").serviceUnregistered ":1.42") =
      [Effect.cleanupTask "any", Effect.deleteLater (loaded "any" 1),
        Effect.appletDeleted (loaded "any" 1)] := by
  decide

/-! ## C9: `setAllowedPlasmoids` with the current allow list -/

/-- C9, as stated, fails for a reordering.  The allow list is `player, clock`;
`setAllowedPlasmoids` with `clock, player` (the same ids in another order)
replaces the list, runs `restorePlasmoids` and emits `allowedPlasmoidsChanged`. -/
theorem C9_counterexample_reordering :
    ((exampleTray false).setAllowedPlasmoids ["player", "clock"]).m_allowedPlasmoids =
      ["player", "clock"] ∧
    List.Perm ["clock", "player"] ["player", "clock"] ∧
    (((exampleTray false).setAllowedPlasmoids ["player", "clock"]).setAllowedPlasmoids
      ["clock", "player"]).m_allowedPlasmoids = ["clock", "player"] ∧
    effectsSince ((exampleTray false).setAllowedPlasmoids ["player", "clock"])
        (((exampleTray false).setAllowedPlasmoids ["player", "clock"]).setAllowedPlasmoids
          ["clock", "player"]) =
      [Effect.restorePlasmoids, Effect.newTask "clock", Effect.initDBusActivatables,
        Effect.allowedPlasmoidsChanged] :=
  ⟨by decide, List.Perm.swap _ _ _, by decide, by decide⟩

/-- C9, amended.  `setAllowedPlasmoids` leaves the whole state unchanged (the
stored allow list, every other member, no reconciliation and no notification in
the log) exactly when its argument equals the current allow list as a list:
the same ids in the same order. -/
theorem C9_noop_iff_same_list (s : SystemTray) (allowed : List String) :
    s.setAllowedPlasmoids allowed = s ↔ allowed = s.m_allowedPlasmoids := by
  constructor
  · intro h
    by_contra hne
    have h2 : (s.setAllowedPlasmoids allowed).m_allowedPlasmoids = allowed := by
      rw [setAllowedPlasmoids_of_ne s allowed hne]
      exact (restorePlasmoids_static { s with m_allowedPlasmoids := allowed }).m_allowedPlasmoids
    rw [h] at h2
    exact hne h2.symm
  · intro h
    unfold setAllowedPlasmoids
    rw [if_pos h]

/-! ## C10: counts of plugins that are not allowed -/

namespace SystemTray

theorem setAllowedPlasmoids_count (s : SystemTray) (allowed : List String) (plugin : String) :
    (s.setAllowedPlasmoids allowed).count plugin = s.count plugin := by
  by_cases h : allowed = s.m_allowedPlasmoids
  · unfold setAllowedPlasmoids
    rw [if_pos h]
  · rw [setAllowedPlasmoids_of_ne s allowed h]
    show QHash.value (restorePlasmoids _).m_dbusServiceCounts plugin 0 = _
    rw [restorePlasmoids_counts]
    rfl

theorem serviceRegistered_count_not_allowed (s : SystemTray) (service plugin : String)
    (hnot : plugin ∉ s.m_allowedPlasmoids) :
    (s.serviceRegistered service).count plugin = s.count plugin := by
  unfold serviceRegistered
  split_ifs
  · rfl
  · have := foldl_invariant
      (fun t : SystemTray => t.m_allowedPlasmoids = s.m_allowedPlasmoids ∧
        t.count plugin = s.count plugin) (registeredStep service) s.m_dbusActivatableTasks
      (fun t it _ ht => by
        refine ⟨(registeredStep_static service t it).m_allowedPlasmoids.trans ht.1, ?_⟩
        by_cases hp : it.1 = plugin
        · rw [registeredStep_skip service t it (Or.inl (by rw [hp, ht.1]; exact hnot))]
          exact ht.2
        · exact (registeredStep_frame service plugin t it hp).count.trans ht.2)
      s ⟨rfl, rfl⟩
    exact this.2

theorem serviceUnregistered_count_not_allowed (s : SystemTray) (service plugin : String)
    (hnot : plugin ∉ s.m_allowedPlasmoids) :
    (s.serviceUnregistered service).count plugin = s.count plugin := by
  have := foldl_invariant
    (fun t : SystemTray => t.m_allowedPlasmoids = s.m_allowedPlasmoids ∧
      t.count plugin = s.count plugin) (unregisteredStep service) s.m_dbusActivatableTasks
    (fun t it _ ht => by
      refine ⟨(unregisteredStep_static service t it).m_allowedPlasmoids.trans ht.1, ?_⟩
      by_cases hp : it.1 = plugin
      · rw [unregisteredStep_skip service t it (Or.inl (by rw [hp, ht.1]; exact hnot))]
        exact ht.2
      · exact (unregisteredStep_frame service plugin t it hp).count.trans ht.2)
    s ⟨rfl, rfl⟩
  exact this.2

end SystemTray

/-- C10, as stated, fails in its second half.  `player` has count 1 when it is
removed from the allow list; after it is allowed again its count is still 1,
not 0. -/
theorem C10_counterexample_stale_count :
    (((exampleTray false).setAllowedPlasmoids ["player"]).serviceRegistered
      "org.example.a").count "player" = 1 ∧
    "player" ∉ ((((exampleTray false).setAllowedPlasmoids ["player"]).serviceRegistered
      "org.example.a").setAllowedPlasmoids []).m_allowedPlasmoids ∧
    "player" ∈ (((((exampleTray false).setAllowedPlasmoids ["player"]).serviceRegistered
      "org.example.a").setAllowedPlasmoids []).setAllowedPlasmoids
        ["player"]).m_allowedPlasmoids ∧
    (((((exampleTray false).setAllowedPlasmoids ["player"]).serviceRegistered
      "org.example.a").setAllowedPlasmoids []).setAllowedPlasmoids ["player"]).count "player"
      = 1 := by
  decide

/-- C10, amended.  For a plugin that is not in the allow list,
`serviceRegistered` and `serviceUnregistered` leave its count unchanged,
whatever the name.  `setAllowedPlasmoids` never changes a count: a plugin that
is removed from the allow list and allowed again has the count it had when it
was removed. -/
theorem C10_counts_of_disallowed_plugins (s : SystemTray) (plugin service : String)
    (removed readded : List String) :
    (plugin ∉ s.m_allowedPlasmoids →
      (s.serviceRegistered service).count plugin = s.count plugin ∧
      (s.serviceUnregistered service).count plugin = s.count plugin) ∧
    ((s.setAllowedPlasmoids removed).setAllowedPlasmoids readded).count plugin =
      s.count plugin :=
  ⟨fun hnot => ⟨SystemTray.serviceRegistered_count_not_allowed s service plugin hnot,
      SystemTray.serviceUnregistered_count_not_allowed s service plugin hnot⟩,
    by rw [SystemTray.setAllowedPlasmoids_count, SystemTray.setAllowedPlasmoids_count]⟩

/-- C10, amended, on the example tray: `player` is not allowed and its pattern
matches `org.example.a`. -/
theorem C10_witness :
    "player" ∉ (exampleTray false).m_allowedPlasmoids ∧
    (QRegExp.wildcard "org.example.*").exactMatch "org.example.a" = true ∧
    ((exampleTray false).serviceRegistered "org.example.a").count "player" =
      (exampleTray false).count "player" ∧
    ((exampleTray false).serviceUnregistered "org.example.a").count "player" =
      (exampleTray false).count "player" ∧
    (((exampleTray false).setAllowedPlasmoids []).setAllowedPlasmoids ["player"]).count "player" =
      (exampleTray false).count "player" :=
  ⟨by decide, by decide,
   ((C10_counts_of_disallowed_plugins (exampleTray false) "player" "org.example.a" []
      ["player"]).1 (by decide)).1,
   ((C10_counts_of_disallowed_plugins (exampleTray false) "player" "org.example.a" []
      ["player"]).1 (by decide)).2,
   (C10_counts_of_disallowed_plugins (exampleTray false) "player" "org.example.a" []
      ["player"]).2⟩

/-! ## The effects of one reconciliation pass -/

namespace SystemTray

theorem newTask_effects (s : SystemTray) (task : String) :
    ∃ fx, (s.newTask task).log = s.log ++ fx ∧ ∀ e ∈ fx, fromNewTask task e := by
  obtain ⟨fx, added, known, m, heq, hcases⟩ := newTask_shape s task
  refine ⟨Effect.newTask task :: fx, by rw [heq], ?_⟩
  intro e he
  rcases List.mem_cons.mp he with h | h
  · exact Or.inl h
  · rcases hcases with ⟨-, -, hfx⟩ | ⟨id, -, hfx, -, -, -⟩
    · rcases hfx with hfx | hfx
      · rw [hfx] at h; cases h
      · rw [hfx] at h
        exact Or.inr (Or.inl (List.mem_singleton.mp h))
    · rw [hfx] at h
      exact Or.inr (Or.inr ⟨id, List.mem_singleton.mp h⟩)

/-- The last loop of `restorePlasmoids` has no effects but those of its
`newTask` calls, and these are for allowed entries of the list. -/
theorem addSorted_fold_effects (l : List (String × KPluginMetaData)) (s : SystemTray) :
    ∃ fx, (l.foldl addSorted s).log = s.log ++ fx ∧
      ∀ e ∈ fx, ∃ it ∈ l, it.2.pluginId ∈ s.m_allowedPlasmoids ∧
        fromNewTask it.2.pluginId e := by
  induction l generalizing s with
  | nil => exact ⟨[], by simp, fun e he => by cases he⟩
  | cons x tl ih =>
    rw [List.foldl_cons]
    obtain ⟨f2, hlog2, h2⟩ := ih (addSorted s x)
    have hall : (addSorted s x).m_allowedPlasmoids = s.m_allowedPlasmoids :=
      (addSorted_static s x).m_allowedPlasmoids
    have hrest : ∀ e ∈ f2, ∃ it ∈ x :: tl, it.2.pluginId ∈ s.m_allowedPlasmoids ∧
        fromNewTask it.2.pluginId e := by
      intro e he
      obtain ⟨it, hit, ha, hf⟩ := h2 e he
      exact ⟨it, List.mem_cons_of_mem _ hit, hall ▸ ha, hf⟩
    by_cases hc : s.m_allowedPlasmoids.contains x.2.pluginId = true
    · obtain ⟨f1, hlog1, h1⟩ := newTask_effects s x.2.pluginId
      have hx : addSorted s x = s.newTask x.2.pluginId := by
        unfold addSorted
        rw [if_pos hc]
      refine ⟨f1 ++ f2, by rw [hlog2, hx, hlog1, List.append_assoc], ?_⟩
      intro e he
      rcases List.mem_append.mp he with h | h
      · exact ⟨x, List.mem_cons_self _ _, by simpa using hc, h1 e h⟩
      · exact hrest e h
    · have hx : addSorted s x = s := by
        unfold addSorted
        rw [if_neg hc]
      refine ⟨f2, by rw [hlog2, hx], ?_⟩
      exact hrest

/-- Every entry of `sortedApplets` is a catalogue entry that is allowed and has
no activation pattern. -/
theorem sortedApplets_mem_catalog (s : SystemTray) (e : String × KPluginMetaData)
    (he : e ∈ sortedApplets s) :
    ∃ it ∈ s.m_systrayApplets, e.2 = it.2 ∧ it.2.pluginId ∈ s.m_allowedPlasmoids ∧
      QHash.contains s.m_dbusActivatableTasks it.2.pluginId = false := by
  have hinv := foldl_invariant
    (fun m : QMap KPluginMetaData => ∀ e ∈ m, ∃ it ∈ s.m_systrayApplets, e.2 = it.2 ∧
      it.2.pluginId ∈ s.m_allowedPlasmoids ∧
      QHash.contains s.m_dbusActivatableTasks it.2.pluginId = false)
    (sortedAppletsStep s) s.m_systrayApplets
    (fun m x hx hm => by
      intro e he
      unfold sortedAppletsStep at he
      simp only [] at he
      split_ifs at he with hc hd
      · exact hm e he
      · rcases QMap.mem_insertMulti _ _ _ _ he with h | h
        · simp only [Bool.and_eq_true, Bool.not_eq_true'] at hc
          exact ⟨x, hx, by rw [h], by simpa using hc.1, hc.2⟩
        · exact hm e h
      · exact hm e he)
    [] (fun e he => by cases he)
  exact hinv e he

/-- Every allowed catalogue entry without activation pattern has an entry with
its plugin id in `sortedApplets`. -/
theorem sortedApplets_fold_has_id (s : SystemTray) (l : List (String × KPluginMetaData))
    (acc : QMap KPluginMetaData) (it : String × KPluginMetaData) (hit : it ∈ l)
    (hallowed : it.2.pluginId ∈ s.m_allowedPlasmoids)
    (hnopattern : QHash.contains s.m_dbusActivatableTasks it.2.pluginId = false) :
    ∃ e ∈ l.foldl (sortedAppletsStep s) acc, e.2.pluginId = it.2.pluginId := by
  induction l generalizing acc with
  | nil => cases hit
  | cons x tl ih =>
    rw [List.foldl_cons]
    rcases List.mem_cons.mp hit with h | h
    · subst h
      have hstep : ∃ e ∈ sortedAppletsStep s acc it, e.2.pluginId = it.2.pluginId := by
        unfold sortedAppletsStep
        simp only []
        have hc : (s.m_allowedPlasmoids.contains it.2.pluginId &&
            !QHash.contains s.m_dbusActivatableTasks it.2.pluginId) = true := by
          simp [hallowed, hnopattern]
        rw [if_pos hc]
        split_ifs with hd
        · simp only [Bool.and_eq_true] at hd
          obtain ⟨v, hv, hvid⟩ := List.any_eq_true.mp hd.2
          obtain ⟨e, he, hev⟩ := List.mem_map.mp hv
          refine ⟨e, (List.mem_filter.mp he).1, ?_⟩
          rw [hev]
          simpa using hvid
        · exact ⟨_, QMap.mem_insertMulti_self _ _ _, rfl⟩
      obtain ⟨e, he, hid⟩ := hstep
      exact ⟨e, foldl_invariant (fun m => e ∈ m) (sortedAppletsStep s) tl
        (fun m y _ hm => sortedAppletsStep_mono s m y _ hm) _ he, hid⟩
    · exact ih _ h

/-- The log of one pass of `restorePlasmoids`: the removal of the applets that
are not allowed anymore, then the effects of `newTask` calls for allowed
catalogue entries without activation pattern, then `initDBusActivatables`. -/
theorem restorePlasmoids_log (s : SystemTray) (hcont : s.isContainment = true) :
    ∃ fx, s.restorePlasmoids.log =
        s.log ++ (Effect.restorePlasmoids ::
          (s.applets.filter (notAllowedAnymore s.m_allowedPlasmoids)).flatMap (fun applet =>
            [Effect.deleteGroup applet, Effect.deleteLater applet])) ++ fx ++
          [Effect.initDBusActivatables] ∧
      ∀ e ∈ fx, ∃ it ∈ s.m_systrayApplets, it.2.pluginId ∈ s.m_allowedPlasmoids ∧
        QHash.contains s.m_dbusActivatableTasks it.2.pluginId = false ∧
        fromNewTask it.2.pluginId e := by
  rw [restorePlasmoids_eq s hcont]
  obtain ⟨fx, hlog, hfx⟩ := addSorted_fold_effects
    (sortedApplets (s.record Effect.restorePlasmoids).removeNotAllowed.loadKnownPlugins)
    (s.record Effect.restorePlasmoids).removeNotAllowed.loadKnownPlugins
  refine ⟨fx, ?_, ?_⟩
  · show (List.foldl addSorted _ _).log ++ [Effect.initDBusActivatables] = _
    rw [hlog]
    simp [loadKnownPlugins, removeNotAllowed, record, List.append_assoc]
  · intro e he
    obtain ⟨x, hx, -, hf⟩ := hfx e he
    obtain ⟨it, hit, hxit, ha, hp⟩ := sortedApplets_mem_catalog _ x hx
    exact ⟨it, hit, ha, hp, hxit ▸ hf⟩

end SystemTray

/-! ## C11: the reconciliation pass removes what is not allowed -/

namespace SystemTray

theorem restorePlasmoids_applets_mem (s : SystemTray) (hcont : s.isContainment = true)
    (x : Applet) (hx : x ∈ (s.record Effect.restorePlasmoids).removeNotAllowed.applets) :
    x ∈ s.restorePlasmoids.applets := by
  rw [restorePlasmoids_eq s hcont]
  show x ∈ (List.foldl addSorted _ _).applets
  refine restorePlasmoids_fold_invariant (fun t : SystemTray => x ∈ t.applets) _ _ ?_ hx
  intro t task _ ht
  obtain ⟨fx, added, known, m, heq, -⟩ := newTask_shape t task
  rw [heq]
  exact List.mem_append_left _ ht

theorem notAllowedAnymore_iff (allowed : List String) (applet : Applet) :
    notAllowedAnymore allowed applet = true ↔
      (applet.valid = false ∨ applet.pluginId ∉ allowed) := by
  unfold notAllowedAnymore
  cases hv : applet.valid
  · simp
  · by_cases ha : applet.pluginId ∈ allowed
    · simp [ha]
    · simp [ha]

end SystemTray

/-- C11, as stated, fails in its second half.  The tray holds group 1 for the
clock; the first pass starts `foo` with the next unused id, 1, and the clock
with its known id, 1.  The next pass, with the allow list that holds the clock
only, removes `foo` and deletes its configuration group, group 1: the clock is
allowed, has valid metadata and stays in `applets()`, and its configuration
group is gone. -/
theorem C11_counterexample_shared_group :
    (sharedIdTray.setAllowedPlasmoids ["clock", "foo"]).applets =
      [loaded "foo" 1, loaded "clock" 1] ∧
    (sharedIdTray.setAllowedPlasmoids ["clock", "foo"]).config = [(1, "clock")] ∧
    ((sharedIdTray.setAllowedPlasmoids ["clock", "foo"]).setAllowedPlasmoids
      ["clock"]).m_allowedPlasmoids = ["clock"] ∧
    loaded "clock" 1 ∈ ((sharedIdTray.setAllowedPlasmoids ["clock", "foo"]).setAllowedPlasmoids
      ["clock"]).applets ∧
    effectsSince (sharedIdTray.setAllowedPlasmoids ["clock", "foo"])
        ((sharedIdTray.setAllowedPlasmoids ["clock", "foo"]).setAllowedPlasmoids ["clock"]) =
      [Effect.restorePlasmoids, Effect.deleteGroup (loaded "foo" 1),
        Effect.deleteLater (loaded "foo" 1), Effect.newTask "clock",
        Effect.initDBusActivatables, Effect.allowedPlasmoidsChanged] ∧
    ((sharedIdTray.setAllowedPlasmoids ["clock", "foo"]).setAllowedPlasmoids
      ["clock"]).config = [] := by
  decide

/-- C11, amended.  For every state (of the containment) and every applet present
before `restorePlasmoids`: if its metadata is invalid or its plugin id is not in
the allow list, the pass calls `deleteGroup()` on its configuration group and
`deleteLater()` on it, after the pass the applet has the deletion pending and
no configuration group with its number is left; if its metadata is valid and
its plugin id is in the allow list, the pass calls neither `deleteGroup()` nor
`deleteLater()` on it, the applet is unchanged in `applets()`, and its
configuration group is kept unless a removed applet has the same number.  A
configuration group is left after the pass exactly when it was there before and
no removed applet carries its number. -/
theorem C11_pass_removes_not_allowed (s : SystemTray) (applet : Applet)
    (hcont : s.isContainment = true) (hmem : applet ∈ s.applets) :
    ((applet.valid = false ∨ applet.pluginId ∉ s.m_allowedPlasmoids) →
      Effect.deleteLater applet ∈ effectsSince s s.restorePlasmoids ∧
      Effect.deleteGroup applet ∈ effectsSince s s.restorePlasmoids ∧
      { applet with deleteLater := true } ∈ s.restorePlasmoids.applets ∧
      ∀ g ∈ s.restorePlasmoids.config, g.1 ≠ applet.id) ∧
    ((applet.valid = true ∧ applet.pluginId ∈ s.m_allowedPlasmoids) →
      Effect.deleteLater applet ∉ effectsSince s s.restorePlasmoids ∧
      Effect.deleteGroup applet ∉ effectsSince s s.restorePlasmoids ∧
      applet ∈ s.restorePlasmoids.applets ∧
      ((∀ b ∈ s.applets, (b.valid = false ∨ b.pluginId ∉ s.m_allowedPlasmoids) →
          b.id ≠ applet.id) →
        ∀ g ∈ s.config, g.1 = applet.id → g ∈ s.restorePlasmoids.config)) ∧
    (∀ g : Nat × String, g ∈ s.restorePlasmoids.config ↔
      (g ∈ s.config ∧
        ∀ b ∈ s.applets, (b.valid = false ∨ b.pluginId ∉ s.m_allowedPlasmoids) →
          b.id ≠ g.1)) := by
  obtain ⟨fx, hlog, hfx⟩ := restorePlasmoids_log s hcont
  have hlog2 : s.restorePlasmoids.log = s.log ++ ((Effect.restorePlasmoids ::
      (s.applets.filter (notAllowedAnymore s.m_allowedPlasmoids)).flatMap (fun applet =>
        [Effect.deleteGroup applet, Effect.deleteLater applet])) ++ fx ++
      [Effect.initDBusActivatables]) := by
    rw [hlog]
    simp [List.append_assoc]
  have heff := effectsSince_of_log hlog2
  have hcfg : s.restorePlasmoids.config = s.config.filter (fun group =>
      !(s.applets.filter (notAllowedAnymore s.m_allowedPlasmoids)).any (fun applet =>
        applet.id == group.1)) := by
    rw [restorePlasmoids_config s hcont]
    rfl
  have hnofx : ∀ a, Effect.deleteLater a ∉ fx ∧ Effect.deleteGroup a ∉ fx := by
    intro a
    constructor
    · intro h
      obtain ⟨it, -, -, -, hf⟩ := hfx _ h
      rcases hf with hf | hf | ⟨id, hf⟩ <;> cases hf
    · intro h
      obtain ⟨it, -, -, -, hf⟩ := hfx _ h
      rcases hf with hf | hf | ⟨id, hf⟩ <;> cases hf
  refine ⟨?_, ?_, ?_⟩
  · intro hgone
    have hg : notAllowedAnymore s.m_allowedPlasmoids applet = true :=
      (notAllowedAnymore_iff _ _).mpr hgone
    have hin : applet ∈ s.applets.filter (notAllowedAnymore s.m_allowedPlasmoids) :=
      List.mem_filter.mpr ⟨hmem, hg⟩
    have hfm : ∀ e ∈ [Effect.deleteGroup applet, Effect.deleteLater applet],
        e ∈ effectsSince s s.restorePlasmoids := by
      intro e he
      rw [heff]
      apply List.mem_append_left
      apply List.mem_append_left
      apply List.mem_cons_of_mem
      exact List.mem_flatMap.mpr ⟨applet, hin, he⟩
    refine ⟨hfm _ (by simp), hfm _ (by simp), ?_, ?_⟩
    · apply restorePlasmoids_applets_mem s hcont
      show _ ∈ List.map _ s.applets
      refine List.mem_map.mpr ⟨applet, hmem, ?_⟩
      show (if notAllowedAnymore s.m_allowedPlasmoids applet = true then _ else _) = _
      rw [if_pos hg]
    · intro g hg2 heq
      rw [hcfg] at hg2
      have h3 := (List.mem_filter.mp hg2).2
      have : (s.applets.filter (notAllowedAnymore s.m_allowedPlasmoids)).any (fun applet =>
          applet.id == g.1) = true :=
        List.any_eq_true.mpr ⟨applet, hin, by simp [heq]⟩
      rw [this] at h3
      cases h3
  · intro hkept
    have hg : notAllowedAnymore s.m_allowedPlasmoids applet = false := by
      cases h : notAllowedAnymore s.m_allowedPlasmoids applet
      · rfl
      · rcases (notAllowedAnymore_iff _ _).mp h with h2 | h2
        · rw [hkept.1] at h2; cases h2
        · exact absurd hkept.2 h2
    have hnot : ∀ e ∈ [Effect.deleteGroup applet, Effect.deleteLater applet],
        e ∉ effectsSince s s.restorePlasmoids := by
      intro e he hin
      rw [heff] at hin
      simp only [List.mem_append, List.mem_cons, List.mem_singleton, List.not_mem_nil,
        or_false] at hin he
      rcases hin with ((hin | hin) | hin) | hin
      · rcases he with rfl | rfl <;> cases hin
      · obtain ⟨b, hb, hbe⟩ := List.mem_flatMap.mp hin
        have hbg := (List.mem_filter.mp hb).2
        simp only [List.mem_cons, List.mem_singleton, List.not_mem_nil, or_false] at hbe
        have hba : b = applet := by
          rcases he with rfl | rfl
          · rcases hbe with hbe | hbe
            · exact (Effect.deleteGroup.inj hbe).symm
            · cases hbe
          · rcases hbe with hbe | hbe
            · cases hbe
            · exact (Effect.deleteLater.inj hbe).symm
        rw [hba, hg] at hbg
        cases hbg
      · rcases he with rfl | rfl
        · exact (hnofx applet).2 hin
        · exact (hnofx applet).1 hin
      · rcases he with rfl | rfl <;> cases hin
    refine ⟨hnot _ (by simp), hnot _ (by simp), ?_, ?_⟩
    · apply restorePlasmoids_applets_mem s hcont
      show _ ∈ List.map _ s.applets
      refine List.mem_map.mpr ⟨applet, hmem, ?_⟩
      show (if notAllowedAnymore s.m_allowedPlasmoids applet = true then _ else _) = _
      rw [hg]
      rfl
    · intro hids g hgmem hgid
      rw [hcfg]
      refine List.mem_filter.mpr ⟨hgmem, ?_⟩
      have : (s.applets.filter (notAllowedAnymore s.m_allowedPlasmoids)).any (fun applet =>
          applet.id == g.1) = false := by
        rw [List.any_eq_false]
        intro b hb hbid
        have hb2 := List.mem_filter.mp hb
        have := hids b hb2.1 ((notAllowedAnymore_iff _ _).mp hb2.2)
        rw [hgid] at hbid
        exact this (by simpa using hbid)
      rw [this]
      rfl

  · intro g
    rw [hcfg, List.mem_filter]
    constructor
    · rintro ⟨hgmem, hgany⟩
      refine ⟨hgmem, ?_⟩
      intro b hb hgone heq
      have : (s.applets.filter (notAllowedAnymore s.m_allowedPlasmoids)).any (fun applet =>
          applet.id == g.1) = true :=
        List.any_eq_true.mpr ⟨b, List.mem_filter.mpr
          ⟨hb, (SystemTray.notAllowedAnymore_iff _ _).mpr hgone⟩, by simp [heq]⟩
      rw [this] at hgany
      cases hgany
    · rintro ⟨hgmem, hall⟩
      refine ⟨hgmem, ?_⟩
      have : (s.applets.filter (notAllowedAnymore s.m_allowedPlasmoids)).any (fun applet =>
          applet.id == g.1) = false := by
        rw [List.any_eq_false]
        intro b hb hbid
        have hb2 := List.mem_filter.mp hb
        exact hall b hb2.1 ((SystemTray.notAllowedAnymore_iff _ _).mp hb2.2)
          (by simpa using hbid)
      rw [this]
      rfl

/-- C11, amended, on the example tray with one configuration group per applet,
for the pass with the allow list that holds the clock only: the player applet
(not allowed) and the applet with invalid metadata are removed and their groups
2 and 7 deleted; the clock applet is kept and so is its group 1. -/
theorem C11_witness :
    narrowedTray.applets = [loaded "clock" 1, loaded "player" 2,
      { id := 7, pluginId := "", valid := false, destroyed := false, deleteLater := false }] ∧
    narrowedTray.config = [(1, "clock"), (2, "player"), (7, "")] ∧
    narrowedTray.restorePlasmoids.config = [(1, "clock")] ∧
    (Effect.deleteLater (loaded "player" 2) ∈ effectsSince narrowedTray
        narrowedTray.restorePlasmoids ∧
      Effect.deleteGroup (loaded "player" 2) ∈ effectsSince narrowedTray
        narrowedTray.restorePlasmoids ∧
      { loaded "player" 2 with deleteLater := true } ∈ narrowedTray.restorePlasmoids.applets ∧
      ∀ g ∈ narrowedTray.restorePlasmoids.config, g.1 ≠ (loaded "player" 2).id) ∧
    (Effect.deleteLater (loaded "clock" 1) ∉ effectsSince narrowedTray
        narrowedTray.restorePlasmoids ∧
      Effect.deleteGroup (loaded "clock" 1) ∉ effectsSince narrowedTray
        narrowedTray.restorePlasmoids ∧
      loaded "clock" 1 ∈ narrowedTray.restorePlasmoids.applets ∧
      ∀ g ∈ narrowedTray.config, g.1 = (loaded "clock" 1).id →
        g ∈ narrowedTray.restorePlasmoids.config) :=
  ⟨by decide, by decide, by decide,
   (C11_pass_removes_not_allowed narrowedTray (loaded "player" 2) (by decide) (by decide)).1
     (Or.inr (by decide)),
   ⟨((C11_pass_removes_not_allowed narrowedTray (loaded "clock" 1) (by decide)
      (by decide)).2.1 ⟨rfl, by decide⟩).1,
    ((C11_pass_removes_not_allowed narrowedTray (loaded "clock" 1) (by decide)
      (by decide)).2.1 ⟨rfl, by decide⟩).2.1,
    ((C11_pass_removes_not_allowed narrowedTray (loaded "clock" 1) (by decide)
      (by decide)).2.1 ⟨rfl, by decide⟩).2.2.1,
    ((C11_pass_removes_not_allowed narrowedTray (loaded "clock" 1) (by decide)
      (by decide)).2.1 ⟨rfl, by decide⟩).2.2.2 (by decide)⟩⟩

/-! ## C12: the reconciliation pass starts the plugins without activation pattern -/

namespace SystemTray

/-- The pass `restorePlasmoids` calls `newTask` for the plugin id of every
catalogue entry that is allowed and has no activation pattern. -/
theorem restorePlasmoids_calls_newTask_id (s : SystemTray) (hcont : s.isContainment = true)
    (it : String × KPluginMetaData) (hit : it ∈ s.m_systrayApplets)
    (hallowed : it.2.pluginId ∈ s.m_allowedPlasmoids)
    (hnopattern : QHash.contains s.m_dbusActivatableTasks it.2.pluginId = false) :
    Effect.newTask it.2.pluginId ∈ effectsSince s s.restorePlasmoids := by
  rw [restorePlasmoids_eq s hcont]
  obtain ⟨e, hmem, hid⟩ := sortedApplets_fold_has_id
    (s.record Effect.restorePlasmoids).removeNotAllowed.loadKnownPlugins s.m_systrayApplets []
    it hit hallowed hnopattern
  have h1 : LogExt s (s.record Effect.restorePlasmoids).removeNotAllowed.loadKnownPlugins :=
    (record_logExt s _).ltrans ((removeNotAllowed_logExt _).ltrans (LogExt.lrefl _))
  have h2 := foldl_rel LogExt LogExt.lrefl (fun _ _ _ => LogExt.ltrans) addSorted
    (sortedApplets (s.record Effect.restorePlasmoids).removeNotAllowed.loadKnownPlugins)
    (fun t y _ => addSorted_logExt t y)
    (s.record Effect.restorePlasmoids).removeNotAllowed.loadKnownPlugins
  apply mem_effectsSince_right (h1.ltrans h2) (record_logExt _ _)
  apply mem_effectsSince_left h1 h2
  rw [← hid]
  exact addSorted_fold_calls _ _ e hmem (by rw [hid]; exact hallowed)

/-- What one pass of `restorePlasmoids` does, effect by effect. -/
theorem restorePlasmoids_effect_cases (s : SystemTray) (e : Effect)
    (he : e ∈ effectsSince s s.restorePlasmoids) :
    e = Effect.loadedAsApplet ∨ e = Effect.restorePlasmoids ∨
    e = Effect.initDBusActivatables ∨
    (∃ applet ∈ s.applets, e = Effect.deleteGroup applet ∨ e = Effect.deleteLater applet) ∨
    (∃ it ∈ s.m_systrayApplets, it.2.pluginId ∈ s.m_allowedPlasmoids ∧
      QHash.contains s.m_dbusActivatableTasks it.2.pluginId = false ∧
      fromNewTask it.2.pluginId e) := by
  by_cases hcont : s.isContainment = true
  · obtain ⟨fx, hlog, hfx⟩ := restorePlasmoids_log s hcont
    have hlog2 : s.restorePlasmoids.log = s.log ++ ((Effect.restorePlasmoids ::
        (s.applets.filter (notAllowedAnymore s.m_allowedPlasmoids)).flatMap (fun applet =>
          [Effect.deleteGroup applet, Effect.deleteLater applet])) ++ fx ++
        [Effect.initDBusActivatables]) := by
      rw [hlog]
      simp [List.append_assoc]
    rw [effectsSince_of_log hlog2] at he
    simp only [List.mem_append, List.mem_cons, List.mem_singleton, List.not_mem_nil,
      or_false] at he
    rcases he with ((he | he) | he) | he
    · exact Or.inr (Or.inl he)
    · obtain ⟨b, hb, hbe⟩ := List.mem_flatMap.mp he
      simp only [List.mem_cons, List.mem_singleton, List.not_mem_nil, or_false] at hbe
      exact Or.inr (Or.inr (Or.inr (Or.inl ⟨b, (List.mem_filter.mp hb).1, hbe⟩)))
    · exact Or.inr (Or.inr (Or.inr (Or.inr (hfx e he))))
    · exact Or.inr (Or.inr (Or.inl he))
  · have hlog : s.restorePlasmoids.log = s.log ++ [Effect.loadedAsApplet] := by
      unfold restorePlasmoids
      simp [hcont, record]
    rw [effectsSince_of_log hlog] at he
    exact Or.inl (List.mem_singleton.mp he)

end SystemTray

/-- C12. For every catalogue and allow list, one pass of `restorePlasmoids`
calls `newTask` for a plugin id only if a catalogue entry has this id, the id
is in the allow list and it has no activation pattern (no entry in
`m_dbusActivatableTasks`); no applet of a plugin with an activation pattern is
added by the pass; and (in the containment) the pass does call `newTask` for
every such id, whether or not its display name is shared with other entries. -/
theorem C12_pass_starts_plugins_without_pattern (s : SystemTray) :
    (∀ id : String, Effect.newTask id ∈ effectsSince s s.restorePlasmoids →
      (∃ it ∈ s.m_systrayApplets, it.2.pluginId = id) ∧ id ∈ s.m_allowedPlasmoids ∧
        QHash.contains s.m_dbusActivatableTasks id = false) ∧
    (∀ applet : Applet, Effect.addApplet applet ∈ effectsSince s s.restorePlasmoids →
      QHash.contains s.m_dbusActivatableTasks applet.pluginId = false) ∧
    (s.isContainment = true → ∀ it ∈ s.m_systrayApplets,
      it.2.pluginId ∈ s.m_allowedPlasmoids →
      QHash.contains s.m_dbusActivatableTasks it.2.pluginId = false →
      Effect.newTask it.2.pluginId ∈ effectsSince s s.restorePlasmoids) := by
  refine ⟨?_, ?_, ?_⟩
  · intro id he
    rcases SystemTray.restorePlasmoids_effect_cases s _ he with h | h | h | h | h
    · cases h
    · cases h
    · cases h
    · obtain ⟨b, -, hb | hb⟩ := h <;> cases hb
    · obtain ⟨it, hit, ha, hp, hf⟩ := h
      rcases hf with hf | hf | ⟨n, hf⟩
      · have hid : id = it.2.pluginId := Effect.newTask.inj hf
        rw [hid]
        exact ⟨⟨it, hit, rfl⟩, ha, hp⟩
      · cases hf
      · cases hf
  · intro applet he
    rcases SystemTray.restorePlasmoids_effect_cases s _ he with h | h | h | h | h
    · cases h
    · cases h
    · cases h
    · obtain ⟨b, -, hb | hb⟩ := h <;> cases hb
    · obtain ⟨it, hit, ha, hp, hf⟩ := h
      rcases hf with hf | hf | ⟨n, hf⟩
      · cases hf
      · cases hf
      · have hid : applet = loaded it.2.pluginId n := Effect.addApplet.inj hf
        rw [hid]
        exact hp
  · intro hcont it hit ha hp
    exact SystemTray.restorePlasmoids_calls_newTask_id s hcont it hit ha hp

/-- C12 on the running example tray (clock and player allowed): the pass calls
`newTask` for the clock, which has no activation pattern, and whatever it calls
`newTask` for is such a plugin. -/
theorem C12_witness :
    runningTray.m_allowedPlasmoids = ["clock", "player"] ∧
    Effect.newTask "clock" ∈ effectsSince runningTray runningTray.restorePlasmoids ∧
    Effect.newTask "player" ∉ effectsSince runningTray runningTray.restorePlasmoids ∧
    ((∃ it ∈ runningTray.m_systrayApplets, it.2.pluginId = "clock") ∧
      "clock" ∈ runningTray.m_allowedPlasmoids ∧
      QHash.contains runningTray.m_dbusActivatableTasks "clock" = false) :=
  ⟨by decide,
   (C12_pass_starts_plugins_without_pattern runningTray).2.2 (by decide)
     ("clock", ⟨"clock", "Clock", true, "true", true, ""⟩) (by decide) (by decide) (by decide),
   fun h => absurd ((C12_pass_starts_plugins_without_pattern runningTray).1 "player" h).2.2
     (by decide),
   (C12_pass_starts_plugins_without_pattern runningTray).1 "clock" (by decide)⟩

/-! ## C13: what `serviceRegistered` does for a matching plugin -/

namespace SystemTray

/-- The call `serviceRegistered` for a matching allowed plugin: the count goes up
by one and `newTask` is called once, whatever the count was; what `newTask`
does depends on the applets of the plugin only. -/
theorem serviceRegistered_spec (s : SystemTray) (service plugin : String) (rx : QRegExp)
    (hkeys : (s.m_dbusActivatableTasks.map Prod.fst).Nodup)
    (hmem : (plugin, rx) ∈ s.m_dbusActivatableTasks)
    (hallowed : plugin ∈ s.m_allowedPlasmoids) (hmatch : rx.exactMatch service = true)
    (hcolon : QString.startsWith service ':' = false) :
    (s.serviceRegistered service).count plugin = s.count plugin + 1 ∧
    ∃ fx, effectsFor plugin s (s.serviceRegistered service) = Effect.newTask plugin :: fx ∧
      (fx = [] ∨ fx = [Effect.unableToFindApplet plugin] ∨
        ∃ id, fx = [Effect.addApplet (loaded plugin id)]) ∧
      (s.applets.any (fun applet =>
          applet.valid && (plugin == applet.pluginId) && !applet.destroyed) = true →
        fx = []) ∧
      (s.applets.any (fun applet =>
          applet.valid && (plugin == applet.pluginId) && !applet.destroyed) = false →
        plugin ∈ s.installed → ∃ id, fx = [Effect.addApplet (loaded plugin id)]) := by
  obtain ⟨s1, hf, hs, hf2⟩ := serviceRegistered_at s service plugin rx hkeys hmem hallowed
    hmatch hcolon
  have hlive : s1.applets.any (fun applet =>
      applet.valid && (plugin == applet.pluginId) && !applet.destroyed) =
      s.applets.any (fun applet =>
        applet.valid && (plugin == applet.pluginId) && !applet.destroyed) := by
    rw [any_live_appletsOf, hf.applets, ← any_live_appletsOf]
  refine ⟨by rw [hf2.count, count_setCount_self, hf.count], ?_⟩
  obtain ⟨fx, added, known, m, heq, hcases⟩ := newTask_shape s1 plugin
  have hlog : (s1.newTask plugin).log = s1.log ++ Effect.newTask plugin :: fx := by rw [heq]
  have hform : fx = [] ∨ fx = [Effect.unableToFindApplet plugin] ∨
      ∃ id, fx = [Effect.addApplet (loaded plugin id)] := by
    rcases hcases with ⟨-, -, h | h⟩ | ⟨id, -, h, -, -, -⟩
    · exact Or.inl h
    · exact Or.inr (Or.inl h)
    · exact Or.inr (Or.inr ⟨id, h⟩)
  have hall : (Effect.newTask plugin :: fx).filter (concerns plugin) =
      Effect.newTask plugin :: fx := by
    rw [List.filter_eq_self]
    intro e he
    rcases List.mem_cons.mp he with h | h
    · rw [h]; simp [concerns]
    · rcases hform with h2 | h2 | ⟨id, h2⟩
      · rw [h2] at h; cases h
      · rw [h2] at h
        rw [List.mem_singleton.mp h]; simp [concerns]
      · rw [h2] at h
        rw [List.mem_singleton.mp h]; simp [concerns, loaded]
  refine ⟨fx, ?_, hform, ?_, ?_⟩
  · apply effectsFor_of_filter plugin (serviceRegistered_logExt s service)
    rw [hf2.log]
    show ((s1.newTask plugin).log).filter _ = _
    rw [hlog, List.filter_append, hf.log, hall]
  · intro hrun
    have h1 := newTask_running s1 plugin (hlive.trans hrun)
    have h2 : (s1.newTask plugin).log = s1.log ++ [Effect.newTask plugin] := by
      rw [h1]; rfl
    rw [hlog] at h2
    have h3 := List.append_cancel_left h2
    exact (List.cons.inj h3).2
  · intro hno hinst
    obtain ⟨id, -, hlog3, -, -, -⟩ := newTask_creates s1 plugin (hlive.trans hno)
      (by rw [hs.installed]; exact hinst)
    rw [hlog] at hlog3
    have h3 := List.append_cancel_left hlog3
    exact ⟨id, (List.cons.inj h3).2⟩

end SystemTray

/-- C13, as stated, fails.  On the running tray the player has count 1 and a
running applet, and on the tray where the instantiation failed it has count 1
and no applet: in both, `serviceRegistered("org.example.b")` calls
`newTask("player")` although the count was not 0; and once the plugin can be
instantiated, that call creates the applet. -/
theorem C13_counterexample_newTask_at_count_one :
    runningTray.count "player" = 1 ∧
    runningTray.appletsOf "player" = [loaded "player" 2] ∧
    effectsFor "player" runningTray (runningTray.serviceRegistered "org.example.b") =
      [Effect.newTask "player"] ∧
    failedTray.count "player" = 1 ∧ failedTray.appletsOf "player" = [] ∧
    effectsFor "player" failedTray (failedTray.serviceRegistered "org.example.b") =
      [Effect.newTask "player"] ∧
    effectsFor "player" { failedTray with installed := ["player"] }
        (serviceRegistered { failedTray with installed := ["player"] } "org.example.b") =
      [Effect.newTask "player", Effect.addApplet (loaded "player" 1)] := by
  decide

/-- C13, amended.  For every state and every service name that does not begin
with `:`, and for each allowed plugin whose pattern matches the name (one entry
per plugin in the hash `m_dbusActivatableTasks`) and whose count is below
`INT_MAX`, so that the `++` on the C++ `int` does not overflow:
`serviceRegistered` raises the count of the plugin by exactly one and calls
`newTask` for it exactly once, whatever its count was before.  That call does
nothing more when the plugin has a live applet; when it has none and can be
instantiated, it adds one applet, also when the count was 1 or more. -/
theorem C13_newTask_on_every_registration (s : SystemTray) (service plugin : String)
    (rx : QRegExp)
    (hkeys : (s.m_dbusActivatableTasks.map Prod.fst).Nodup)
    (hmem : (plugin, rx) ∈ s.m_dbusActivatableTasks)
    (hallowed : plugin ∈ s.m_allowedPlasmoids) (hmatch : rx.exactMatch service = true)
    (hcolon : QString.startsWith service ':' = false)
    (hbound : s.count plugin < INT_MAX) :
    (s.serviceRegistered service).count plugin = s.count plugin + 1 ∧
    (s.serviceRegistered service).count plugin ≤ INT_MAX ∧
    (effectsFor plugin s (s.serviceRegistered service)).count (Effect.newTask plugin) = 1 ∧
    (s.applets.any (fun applet =>
        applet.valid && (plugin == applet.pluginId) && !applet.destroyed) = true →
      effectsFor plugin s (s.serviceRegistered service) = [Effect.newTask plugin]) ∧
    (s.applets.any (fun applet =>
        applet.valid && (plugin == applet.pluginId) && !applet.destroyed) = false →
      plugin ∈ s.installed →
      ∃ id, effectsFor plugin s (s.serviceRegistered service) =
        [Effect.newTask plugin, Effect.addApplet (loaded plugin id)]) := by
  obtain ⟨hcnt, fx, hfx, hform, hrun, hno⟩ := SystemTray.serviceRegistered_spec s service plugin
    rx hkeys hmem hallowed hmatch hcolon
  refine ⟨hcnt, ?_, ?_, ?_, ?_⟩
  · rw [hcnt]
    omega
  · rw [hfx]
    rcases hform with h | h | ⟨id, h⟩ <;> rw [h] <;> simp [List.count_cons]
  · intro h
    rw [hfx, hrun h]
  · intro h hinst
    obtain ⟨id, hid⟩ := hno h hinst
    exact ⟨id, by rw [hfx, hid]⟩

/-- C13, amended, on the running tray: the player has count 1 and a live applet;
another registration raises the count to 2 and calls `newTask` once. -/
theorem C13_witness :
    runningTray.count "player" = 1 ∧ runningTray.count "player" < INT_MAX ∧
    (runningTray.serviceRegistered "org.example.b").count "player" =
      runningTray.count "player" + 1 ∧
    (effectsFor "player" runningTray (runningTray.serviceRegistered "org.example.b")).count
      (Effect.newTask "player") = 1 ∧
    effectsFor "player" runningTray (runningTray.serviceRegistered "org.example.b") =
      [Effect.newTask "player"] :=
  ⟨by decide, by decide,
   (C13_newTask_on_every_registration runningTray "org.example.b" "player"
     (QRegExp.wildcard "org.example.*") (by decide) (List.mem_singleton.mpr rfl) (by decide)
     (by decide) (by decide) (by decide)).1,
   (C13_newTask_on_every_registration runningTray "org.example.b" "player"
     (QRegExp.wildcard "org.example.*") (by decide) (List.mem_singleton.mpr rfl) (by decide)
     (by decide) (by decide) (by decide)).2.2.1,
   (C13_newTask_on_every_registration runningTray "org.example.b" "player"
     (QRegExp.wildcard "org.example.*") (by decide) (List.mem_singleton.mpr rfl) (by decide)
     (by decide) (by decide) (by decide)).2.2.2.1 (by decide)⟩
